import Mathlib

set_option linter.unusedSectionVars false

/-!
Shallow embedding of the generative-furniture geometry core
(`src/utils/geometry.ts` and the value-noise utility module), together with
proofs about the network generators, the serpentine deformation pipeline and
the integer lattice hash.

Numbers are modelled by an arbitrary linearly ordered field `K` (instantiated
with `ℝ` for concrete claims); the transcendental functions used by the code
(`Math.sin`, `Math.cos`, `Math.sqrt`, `Math.acos`, `Math.PI`,
`Math.pow (-, 1/3)`) are supplied through an explicit record of operations so
that every algorithmic definition stays computable and generic.
Randomness (`Math.random`) is modelled as an explicit stream `ℕ → K` of draws,
consumed in exactly the order the source consumes them.
-/

/-- Triple of coordinates, the embedding of three.js `Vector3` value uses. -/
structure V3 (K : Type) where
  x : K
  y : K
  z : K
  deriving DecidableEq, Repr

instance {K : Type} [Zero K] : Inhabited (V3 K) := ⟨⟨0, 0, 0⟩⟩

/-- The bundle of real-analytic primitives the geometry code calls
(`Math.sin`, `Math.cos`, `Math.sqrt`, `Math.acos`, `Math.PI`,
and `Math.pow (-, 1/3)` as `cbrt`). -/
structure RealOps (K : Type) where
  sin : K → K
  cos : K → K
  sqrt : K → K
  acos : K → K
  pi : K
  cbrt : K → K

/-- The instantiation of the operation bundle by the actual real functions. -/
noncomputable def realOps : RealOps ℝ :=
  ⟨Real.sin, Real.cos, Real.sqrt, Real.arccos, Real.pi, fun v => v ^ ((1 : ℝ)/3)⟩

variable {K : Type} [LinearOrderedField K]

/-- three.js `MathUtils.lerp`. -/
def lerp (a b t : K) : K := a + (b - a) * t

/-- three.js `MathUtils.clamp`. -/
def clamp (v lo hi : K) : K := max lo (min v hi)

/-- Vector dot product (`Vector3.dot`). -/
def dot3 (a b : V3 K) : K := a.x * b.x + a.y * b.y + a.z * b.z

/-- Vector cross product (`Vector3.crossVectors`). -/
def cross3 (a b : V3 K) : V3 K :=
  ⟨a.y * b.z - a.z * b.y, a.z * b.x - a.x * b.z, a.x * b.y - a.y * b.x⟩

/-- Componentwise difference (`Vector3.sub`). -/
def vsub (a b : V3 K) : V3 K := ⟨a.x - b.x, a.y - b.y, a.z - b.z⟩

/-- Scalar multiple (`Vector3.multiplyScalar`). -/
def vscale (s : K) (a : V3 K) : V3 K := ⟨s * a.x, s * a.y, s * a.z⟩

/-- `Vector3.addScaledVector`: `a + s * b`. -/
def addScaled (a : V3 K) (s : K) (b : V3 K) : V3 K :=
  ⟨a.x + s * b.x, a.y + s * b.y, a.z + s * b.z⟩

/-- `Vector3.length`: Euclidean norm via the supplied square root. -/
def vlen (ops : RealOps K) (a : V3 K) : K :=
  ops.sqrt (a.x * a.x + a.y * a.y + a.z * a.z)

/-- `Vector3.distanceTo`. -/
def dist3 (ops : RealOps K) (a b : V3 K) : K := vlen ops (vsub a b)

/-!  ### The integer lattice hash (`hash3i` in the noise module)

JavaScript `>>` first coerces to a signed 32-bit integer and then shifts
arithmetically; `>>> 0` reinterprets the 32-bit pattern as unsigned.  We model
32-bit patterns as naturals below `2 ^ 32`.
-/

/-- JavaScript `ToUint32`: wrap an integer into `[0, 2^32)`. -/
def toUint32 (n : ℤ) : ℕ := (n % 4294967296).toNat

/-- Arithmetic right shift by `k` of a 32-bit pattern `a`, result again a
32-bit pattern (sign bits replicated), as performed by JavaScript `>> k`
followed by `>>> 0`. -/
def sar32 (k : ℕ) (a : ℕ) : ℕ :=
  if a < 2 ^ 31 then a / 2 ^ k else a / 2 ^ k + (2 ^ 32 - 2 ^ (32 - k))

/-- The integer-coordinate hash `hash3i` of the noise module: multiply the
axes by the three large constants, then xorshift-mix restricted to 32-bit
arithmetic, and normalise by `2^32`. -/
def hash3i (x y z : ℤ) : ℚ :=
  let n0 : ℤ := x * 374761393 + y * 668265263 + z * 2147483647
  let a : ℕ := toUint32 n0
  let n1 : ℕ := Nat.xor a (sar32 13 a)
  let n2 : ℕ := (n1 * 1274126177) % 2 ^ 32
  let n3 : ℕ := Nat.xor n2 (sar32 16 n2)
  (n3 : ℚ) / 4294967296

/-!  ### Curve and frame utilities (`safeUnit`, `initialNormalFromTangent`,
`transportNormal`, `cubicBezierPoint`, `sampleBezier`) -/

/-- `safeUnit`: normalised `v`, or the fallback when `|v| < 1e-9`. -/
def safeUnit (ops : RealOps K) (v : V3 K) (fallback : V3 K := ⟨1, 0, 0⟩) : V3 K :=
  let len := vlen ops v
  if len < 1 / 1000000000 then fallback else vscale (1 / len) v

/-- `initialNormalFromTangent`: cross the normalised tangent with a reference
up axis (switched when nearly parallel), then safe-normalise with fallback
`(0,1,0)`. -/
def initialNormalFromTangent (ops : RealOps K) (t : V3 K) : V3 K :=
  let tn := safeUnit ops t
  let up : V3 K := if |dot3 tn ⟨0, 0, 1⟩| > 92 / 100 then ⟨1, 0, 0⟩ else ⟨0, 0, 1⟩
  safeUnit ops (cross3 tn up) ⟨0, 1, 0⟩

/-- three.js `Quaternion.setFromAxisAngle` followed by
`Vector3.applyQuaternion`: rotate `v` around unit `axis` by `angle`,
via `t = 2 (q × v)`, `v' = v + w t + q × t` with `q = axis sin(angle/2)`,
`w = cos(angle/2)`. -/
def quatRotate (ops : RealOps K) (axis : V3 K) (angle : K) (v : V3 K) : V3 K :=
  let s := ops.sin (angle / 2)
  let w := ops.cos (angle / 2)
  let q : V3 K := vscale s axis
  let t := vscale 2 (cross3 q v)
  ⟨v.x + w * t.x + (q.y * t.z - q.z * t.y),
   v.y + w * t.y + (q.z * t.x - q.x * t.z),
   v.z + w * t.z + (q.x * t.y - q.y * t.x)⟩

/-- `transportNormal`: rotate `prevN` by the rotation carrying the normalised
previous tangent onto the normalised current one; when the tangents are
parallel (axis length `< 1e-9`) return `prevN` unchanged; afterwards
re-orthogonalise against the current tangent and safe-normalise with fallback
`prevN`. -/
def transportNormal (ops : RealOps K) (prevT currT prevN : V3 K) : V3 K :=
  let a := safeUnit ops prevT
  let b := safeUnit ops currT
  let axis := cross3 a b
  let axisLen := vlen ops axis
  if axisLen < 1 / 1000000000 then prevN
  else
    let axisn := vscale (1 / axisLen) axis
    let d := clamp (dot3 a b) (-1) 1
    let angle := ops.acos d
    let n := quatRotate ops axisn angle prevN
    let n2 := addScaled n (-(dot3 n b)) b
    safeUnit ops n2 prevN

/-- `cubicBezierPoint`: Bernstein-basis evaluation. -/
def cubicBezierPoint (p0 p1 p2 p3 : V3 K) (t : K) : V3 K :=
  let it := 1 - t
  let b0 := it * it * it
  let b1 := 3 * it * it * t
  let b2 := 3 * it * t * t
  let b3 := t * t * t
  ⟨p0.x * b0 + p1.x * b1 + p2.x * b2 + p3.x * b3,
   p0.y * b0 + p1.y * b1 + p2.y * b2 + p3.y * b3,
   p0.z * b0 + p1.z * b1 + p2.z * b2 + p3.z * b3⟩

/-- `sampleBezier`: `samples+1` evenly `t`-spaced Bezier points. -/
def sampleBezier (p0 h0 h1 p3 : V3 K) (samples : ℕ) : List (V3 K) :=
  (List.range (samples + 1)).map fun i =>
    cubicBezierPoint p0 h0 h1 p3 ((i : K) / (samples : K))

/-!  ### Serpentine deformation (`serpentinize`) -/

/-- Cumulative arc lengths of a polyline: `cum[i]` is the length of the first
`i` segments; the list has the same length as the input. -/
def cumLengths (ops : RealOps K) (points : List (V3 K)) : List K :=
  (points.zip points.tail).scanl (fun acc ab => acc + dist3 ops ab.1 ab.2) 0

/-- Total arc length of the polyline, the final cumulative entry. -/
def totalLen (ops : RealOps K) (points : List (V3 K)) : K :=
  (cumLengths ops points).getLastD 0

/-- One iteration of the serpentine loop at index `i`: compute the one-sided
or centred tangent, transport the frame, evaluate the taper envelope and the
sine displacement, and append the displaced point. -/
def serpStep (ops : RealOps K) (points : List (V3 K)) (cum : List K)
    (total frequency amplitude taperFraction : K)
    (st : V3 K × V3 K × List (V3 K)) (i : ℕ) : V3 K × V3 K × List (V3 K) :=
  let t : V3 K :=
    if i = 0 then vsub (points.getD 1 default) (points.getD 0 default)
    else if i = points.length - 1 then
      vsub (points.getD (points.length - 1) default)
        (points.getD (points.length - 2) default)
    else vsub (points.getD (i + 1) default) (points.getD (i - 1) default)
  let n := transportNormal ops st.1 t st.2.1
  let u := cum.getD i 0 / total
  let envelope : K :=
    if 0 < taperFraction then
      let e : K :=
        if u < taperFraction then u / taperFraction
        else if u > 1 - taperFraction then (1 - u) / taperFraction
        else 1
      e * e * (3 - 2 * e)
    else 1
  let theta := 2 * ops.pi * frequency * u
  let disp := ops.sin theta * amplitude * envelope
  (t, n, st.2.2 ++ [addScaled (points.getD i default) disp n])

/-- `serpentinize`: displace each point of a sampled polyline along its
transported normal by an envelope-tapered sine of the normalised arc length.
Returns the input unchanged when it has fewer than 3 points or negligible
total length. -/
def serpentinize (ops : RealOps K) (points : List (V3 K))
    (frequency amplitude : K) (taperFraction : K := 15 / 100) : List (V3 K) :=
  if points.length < 3 then points
  else
    let cum := cumLengths ops points
    let total := totalLen ops points
    if total < 1 / 1000000000 then points
    else
      let prevT := vsub (points.getD 1 default) (points.getD 0 default)
      let prevN := initialNormalFromTangent ops prevT
      ((List.range points.length).foldl
        (serpStep ops points cum total frequency amplitude taperFraction)
        (prevT, prevN, [])).2.2

/-- Computable operation bundle over `ℚ` used to instantiate witnesses of
generic theorems (the generic theorems hold for every operation bundle). -/
def qOps : RealOps ℚ := ⟨fun _ => 0, fun _ => 0, fun _ => 0, fun _ => 0, 0, fun _ => 0⟩

/-!  ### The network data model (`NetworkData`, `addNode`, `link`) -/

/-- `NetworkData`: ordered node positions plus ordered index pairs. -/
structure Net (K : Type) where
  nodes : List (V3 K)
  edges : List (ℕ × ℕ)

/-- The fresh node/edge arrays each `generateFurniture` call starts from. -/
def Net.empty : Net K := ⟨[], []⟩

/-- `addNode`: push a node, returning its index (`push(...) - 1`). -/
def addNode (g : Net K) (x y z : K) : Net K × ℕ :=
  ({ g with nodes := g.nodes ++ [⟨x, y, z⟩] }, g.nodes.length)

/-- `link`: push an edge pair. -/
def link (g : Net K) (a b : ℕ) : Net K :=
  { g with edges := g.edges ++ [(a, b)] }

/-- The nine furniture archetypes. -/
inductive FurnitureType where
  | Chair | Table | Stool | Bench | Shelf | Vase | Recliner | Lamp | Mobius
  deriving DecidableEq, Repr

/-- The four pattern families. -/
inductive FurniturePattern where
  | Linear | Voronoi | Gyroid | Triangular
  deriving DecidableEq, Repr

/-- `FurnitureParams`. -/
structure FurnitureParams (K : Type) where
  width : K
  height : K
  depth : K
  seatHeight : K
  pattern : FurniturePattern

/-!  ### Shape classifier (`isInsideFurniture`) -/

/-- The `inBox` helper: half-extent inclusive box membership of `(x,y,z)`. -/
def inBox (x y z bx by0 bz bw bh bd : K) : Bool :=
  decide (|x - bx| ≤ bw / 2) && decide (by0 ≤ y) && decide (y ≤ by0 + bh) &&
    decide (|z - bz| ≤ bd / 2)

/-- `isInsideFurniture`: per-archetype implicit membership predicate. -/
def isInsideFurniture (ops : RealOps K) (ty : FurnitureType) (x y z : K)
    (params : FurnitureParams K) : Bool :=
  let w2 := params.width / 2
  let d2 := params.depth / 2
  match ty with
  | .Table =>
    let legThick := params.width * (15 / 100)
    let topThick := params.height * (1 / 10)
    inBox x y z 0 (params.height - topThick) 0 params.width topThick params.depth ||
      inBox x y z (-w2 + legThick / 2) 0 (d2 - legThick / 2) legThick params.height legThick ||
      inBox x y z (w2 - legThick / 2) 0 (d2 - legThick / 2) legThick params.height legThick ||
      inBox x y z (-w2 + legThick / 2) 0 (-d2 + legThick / 2) legThick params.height legThick ||
      inBox x y z (w2 - legThick / 2) 0 (-d2 + legThick / 2) legThick params.height legThick
  | .Chair =>
    let legThick := params.width * (12 / 100)
    let seatThick := params.height * (8 / 100)
    let backThick := params.depth * (15 / 100)
    inBox x y z (-w2 + legThick / 2) 0 (d2 - legThick / 2) legThick params.seatHeight legThick ||
      inBox x y z (w2 - legThick / 2) 0 (d2 - legThick / 2) legThick params.seatHeight legThick ||
      inBox x y z (-w2 + legThick / 2) 0 (-d2 + legThick / 2) legThick params.seatHeight legThick ||
      inBox x y z (w2 - legThick / 2) 0 (-d2 + legThick / 2) legThick params.seatHeight legThick ||
      inBox x y z 0 params.seatHeight 0 params.width seatThick params.depth ||
      inBox x y z 0 params.seatHeight (-d2 + backThick / 2) params.width
        (params.height - params.seatHeight) backThick
  | .Stool =>
    let rTop := params.width / 2
    let rBot := params.width / (3 / 2)
    let rAtY := lerp rBot rTop (y / params.height)
    decide (x * x + z * z ≤ rAtY * rAtY) && decide (0 ≤ y) && decide (y ≤ params.height)
  | .Bench =>
    let topThick := params.height * (15 / 100)
    let legThick := params.width * (1 / 10)
    inBox x y z 0 (params.height - topThick) 0 params.width topThick params.depth ||
      inBox x y z (-w2 + legThick / 2) 0 0 legThick params.height params.depth ||
      inBox x y z (w2 - legThick / 2) 0 0 legThick params.height params.depth
  | .Vase =>
    let baseRadius := params.width * (4 / 10)
    let t := y / params.height
    let bulge := ops.sin (t * ops.pi) * (3 / 10)
    let rad := baseRadius + bulge + t * (1 / 10)
    decide (x * x + z * z ≤ rad * rad) && decide (0 ≤ y) && decide (y ≤ params.height)
  | _ => inBox x y z 0 0 0 params.width params.height params.depth

/-!  ### Volumetric generators

The dense-to-sparse `Map` from flattened grid index to node id is modelled as
an association list with JavaScript `Map.set` semantics (overwrite an
existing key in place, else append; iteration in insertion order).
The source computes a neighbour's flattened index from the decoded
coordinates of a key; since `idx` is linear, that flattened index always
equals `key + delta`, which is how `connectScan` expresses it.
-/

/-- Association list model of the `Map<number, number>` node map. -/
abbrev NodeMap := List (ℕ × ℕ)

/-- JavaScript `Map.set`. -/
def mapSet (m : NodeMap) (k v : ℕ) : NodeMap :=
  if m.any (fun e => decide (e.1 = k)) then
    m.map (fun e => if e.1 = k then (k, v) else e)
  else m ++ [(k, v)]

/-- JavaScript `Map.get` (`none` when `Map.has` is false). -/
def mapGet (m : NodeMap) (k : ℕ) : Option ℕ :=
  (m.find? (fun e => decide (e.1 = k))).map (fun e => e.2)

/-- The integer grid in source iteration order (`x` outer, `z` inner). -/
def gridList (cx cy cz : ℕ) : List (ℕ × ℕ × ℕ) :=
  (List.range cx).bind fun x =>
    (List.range cy).bind fun y =>
      (List.range cz).map fun z => (x, y, z)

/-- The flattened grid index `idx(x,y,z) = x + y·nx + z·nx·ny`. -/
def flatIdx (nx ny : ℕ) (p : ℕ × ℕ × ℕ) : ℕ :=
  p.1 + p.2.1 * nx + p.2.2 * nx * ny

/-- One grid point of the scan phase: if `keep p` holds, add the world
position of `p` as a node and record its id in the map under `flat p`. -/
def scanStep (keep : ℕ × ℕ × ℕ → Bool) (world : ℕ × ℕ × ℕ → V3 K)
    (flat : ℕ × ℕ × ℕ → ℕ) (st : Net K × NodeMap) (p : ℕ × ℕ × ℕ) :
    Net K × NodeMap :=
  if keep p then
    let r := addNode st.1 (world p).x (world p).y (world p).z
    (r.1, mapSet st.2 (flat p) r.2)
  else st

/-- Shared scan phase of the gyroid/triangular generators: walk the grid,
keep points passing `keep`, add each kept point's world position as a node
and record its id in the map under its flattened index. -/
def buildScan (keep : ℕ × ℕ × ℕ → Bool) (world : ℕ × ℕ × ℕ → V3 K)
    (flat : ℕ × ℕ × ℕ → ℕ) (grid : List (ℕ × ℕ × ℕ)) (g : Net K) :
    Net K × NodeMap :=
  grid.foldl (scanStep keep world flat) (g, [])

/-- Shared connect phase: for each map entry in insertion order, link its
node id to the node id found at each forward-offset flattened index. -/
def connectScan (m : NodeMap) (deltas : List ℕ) (g : Net K) : Net K :=
  m.foldl
    (fun g2 e =>
      deltas.foldl
        (fun g3 d =>
          match mapGet m (e.1 + d) with
          | some v => link g3 e.2 v
          | none => g3)
        g2)
    g

variable [FloorRing K]

/-- Grid dimensions of the gyroid generator:
`nx = ceil(width/res) + 2` etc., clamped at zero iterations (negative
JavaScript loop bounds run zero times). -/
def gyDims (params : FurnitureParams K) : ℕ × ℕ × ℕ :=
  ((⌈params.width / (8 / 100 : K)⌉ + 2).toNat,
   (⌈params.height / (8 / 100 : K)⌉ + 2).toNat,
   (⌈params.depth / (8 / 100 : K)⌉ + 2).toNat)

/-- World position of a gyroid grid point. -/
def gyWorld (params : FurnitureParams K) (p : ℕ × ℕ × ℕ) : V3 K :=
  ⟨-params.width / 2 - 8 / 100 + (p.1 : K) * (8 / 100),
   -(8 / 100) + (p.2.1 : K) * (8 / 100),
   -params.depth / 2 - 8 / 100 + (p.2.2 : K) * (8 / 100)⟩

/-- The gyroid implicit field at scaled coordinates (`scale = 8`). -/
def gyroidVal (ops : RealOps K) (wx wy wz : K) : K :=
  ops.sin (wx * 8) * ops.cos (wy * 8) + ops.sin (wy * 8) * ops.cos (wz * 8) +
    ops.sin (wz * 8) * ops.cos (wx * 8)

/-- Keep test of the gyroid scan: inside the classifier and `|val| < 0.5`. -/
def gyKeep (ops : RealOps K) (ty : FurnitureType) (params : FurnitureParams K)
    (p : ℕ × ℕ × ℕ) : Bool :=
  let w := gyWorld params p
  isInsideFurniture ops ty w.x w.y w.z params &&
    decide (|gyroidVal ops w.x w.y w.z| < 1 / 2)

/-- `generateVolumeGyroid`. -/
def generateVolumeGyroid (ops : RealOps K) (params : FurnitureParams K)
    (ty : FurnitureType) (g : Net K) : Net K :=
  let dims := gyDims params
  let scan := buildScan (gyKeep ops ty params) (gyWorld params)
    (flatIdx dims.1 dims.2.1) (gridList dims.1 dims.2.1 dims.2.2) g
  connectScan scan.2 [1, dims.1, dims.1 * dims.2.1] scan.1

/-- Flattening multipliers `nx, ny` of the triangular generator
(`nx = ceil(width/cellSize)`, used in `idx` even though the loops run to
`nx` inclusive). -/
def triDims (params : FurnitureParams K) : ℕ × ℕ × ℕ :=
  ((⌈params.width / (15 / 100 : K)⌉).toNat,
   (⌈params.height / (15 / 100 : K)⌉).toNat,
   (⌈params.depth / (15 / 100 : K)⌉).toNat)

/-- Iteration counts of the triangular generator's inclusive loops
(`x ≤ nx` runs `nx + 1` times when `nx ≥ 0`, zero times otherwise). -/
def triCounts (params : FurnitureParams K) : ℕ × ℕ × ℕ :=
  ((⌈params.width / (15 / 100 : K)⌉ + 1).toNat,
   (⌈params.height / (15 / 100 : K)⌉ + 1).toNat,
   (⌈params.depth / (15 / 100 : K)⌉ + 1).toNat)

/-- World position of a triangular grid point. -/
def triWorld (params : FurnitureParams K) (p : ℕ × ℕ × ℕ) : V3 K :=
  ⟨-params.width / 2 + (p.1 : K) * (15 / 100),
   (p.2.1 : K) * (15 / 100),
   -params.depth / 2 + (p.2.2 : K) * (15 / 100)⟩

/-- Keep test of the triangular scan: just the classifier. -/
def triKeep (ops : RealOps K) (ty : FurnitureType) (params : FurnitureParams K)
    (p : ℕ × ℕ × ℕ) : Bool :=
  let w := triWorld params p
  isInsideFurniture ops ty w.x w.y w.z params

/-- `generateVolumeTriangular`. -/
def generateVolumeTriangular (ops : RealOps K) (params : FurnitureParams K)
    (ty : FurnitureType) (g : Net K) : Net K :=
  let dims := triDims params
  let counts := triCounts params
  let scan := buildScan (triKeep ops ty params) (triWorld params)
    (flatIdx dims.1 dims.2.1) (gridList counts.1 counts.2.1 counts.2.2) g
  connectScan scan.2
    [1, dims.1, dims.1 * dims.2.1, 1 + dims.1, 1 + dims.1 * dims.2.1,
      dims.1 + dims.1 * dims.2.1, 1 + dims.1 + dims.1 * dims.2.1] scan.1

/-- Target point count of the scattered-point generator:
`max(50, floor(volume × 600))`. -/
def voronoiCount (params : FurnitureParams K) : ℕ :=
  max 50 (⌊params.width * params.height * params.depth * 600⌋).toNat

/-- The rejection-sampling loop of the scattered-point generator, with the
attempt budget as fuel and the random-draw cursor threaded through the
state `(net, accepted points, cursor)`. -/
def vorLoop (ops : RealOps K) (ty : FurnitureType) (params : FurnitureParams K)
    (count : ℕ) (rng : ℕ → K) :
    ℕ → Net K × List (ℕ × V3 K) × ℕ → Net K × List (ℕ × V3 K) × ℕ
  | 0, st => st
  | fuel + 1, st =>
    if st.2.1.length < count then
      let x := (rng st.2.2 - 1 / 2) * params.width
      let y := rng (st.2.2 + 1) * params.height
      let z := (rng (st.2.2 + 2) - 1 / 2) * params.depth
      if isInsideFurniture ops ty x y z params then
        let px := x + (rng (st.2.2 + 3) - 1 / 2) * (5 / 100)
        let py := y + (rng (st.2.2 + 4) - 1 / 2) * (5 / 100)
        let pz := z + (rng (st.2.2 + 5) - 1 / 2) * (5 / 100)
        let r := addNode st.1 px py pz
        vorLoop ops ty params count rng fuel
          (r.1, st.2.1 ++ [(r.2, ⟨px, py, pz⟩)], st.2.2 + 6)
      else vorLoop ops ty params count rng fuel (st.1, st.2.1, st.2.2 + 3)
    else st

/-- The all-pairs connect phase of the scattered-point generator. -/
def vorConnect (ops : RealOps K) (pts : List (ℕ × V3 K)) (threshold : K)
    (g : Net K) : Net K :=
  (List.range pts.length).foldl
    (fun (g1 : Net K) (i : ℕ) =>
      (List.range' (i + 1) (pts.length - (i + 1))).foldl
        (fun (g2 : Net K) (j : ℕ) =>
          let a := pts.getD i (0, default)
          let b := pts.getD j (0, default)
          if dist3 ops a.2 b.2 < threshold then link g2 a.1 b.1 else g2)
        g1)
    g

/-- `generateVolumeVoronoi`. -/
def generateVolumeVoronoi (ops : RealOps K) (ty : FurnitureType)
    (params : FurnitureParams K) (rng : ℕ → K) (g : Net K) : Net K :=
  let volumeApprox := params.width * params.height * params.depth
  let count := voronoiCount params
  let st := vorLoop ops ty params count rng (count * 10) (g, [], 0)
  let avgDist := ops.cbrt (volumeApprox / (count : K))
  let threshold := avgDist * (9 / 5)
  vorConnect ops st.2.1 threshold st.1

/-!  ### Skeletal (Linear) generators -/

/-- `generateLinearChair`. -/
def generateLinearChair (params : FurnitureParams K) (g : Net K) : Net K :=
  let w2 := params.width / 2
  let d2 := params.depth / 2
  let sh := params.seatHeight
  let h := params.height
  let r0 := addNode g (-w2) 0 d2
  let r1 := addNode r0.1 w2 0 d2
  let r2 := addNode r1.1 (-w2) 0 (-d2)
  let r3 := addNode r2.1 w2 0 (-d2)
  let r4 := addNode r3.1 (-w2) sh d2
  let r5 := addNode r4.1 w2 sh d2
  let r6 := addNode r5.1 (-w2) sh (-d2)
  let r7 := addNode r6.1 w2 sh (-d2)
  let r8 := addNode r7.1 (-w2) h (-d2)
  let r9 := addNode r8.1 w2 h (-d2)
  let g1 := link (link (link (link r9.1 r0.2 r4.2) r1.2 r5.2) r2.2 r6.2) r3.2 r7.2
  let g2 := link (link (link (link g1 r4.2 r5.2) r5.2 r7.2) r7.2 r6.2) r6.2 r4.2
  let g3 := link (link g2 r4.2 r7.2) r5.2 r6.2
  let g4 := link (link (link g3 r6.2 r8.2) r7.2 r9.2) r8.2 r9.2
  let g5 := link (link g4 r8.2 r7.2) r9.2 r6.2
  let sh3 := sh * (3 / 10)
  let s0 := addNode g5 (-w2) sh3 d2
  let s1 := addNode s0.1 w2 sh3 d2
  let s2 := addNode s1.1 (-w2) sh3 (-d2)
  let s3 := addNode s2.1 w2 sh3 (-d2)
  link (link s3.1 s0.2 s2.2) s1.2 s3.2

/-- `generateLinearTable`. -/
def generateLinearTable (params : FurnitureParams K) (g : Net K) : Net K :=
  let w2 := params.width / 2
  let d2 := params.depth / 2
  let h := params.height
  let r0 := addNode g (-w2) 0 d2
  let r1 := addNode r0.1 w2 0 d2
  let r2 := addNode r1.1 (-w2) 0 (-d2)
  let r3 := addNode r2.1 w2 0 (-d2)
  let r4 := addNode r3.1 (-w2) h d2
  let r5 := addNode r4.1 w2 h d2
  let r6 := addNode r5.1 (-w2) h (-d2)
  let r7 := addNode r6.1 w2 h (-d2)
  let g1 := link (link (link (link r7.1 r0.2 r4.2) r1.2 r5.2) r2.2 r6.2) r3.2 r7.2
  let g2 := link (link (link (link g1 r4.2 r5.2) r5.2 r7.2) r7.2 r6.2) r6.2 r4.2
  let m0 := addNode g2 0 h d2
  let m1 := addNode m0.1 0 h (-d2)
  let m2 := addNode m1.1 (-w2) h 0
  let m3 := addNode m2.1 w2 h 0
  let mc := addNode m3.1 0 h 0
  let g3 := link (link mc.1 r4.2 m0.2) m0.2 r5.2
  let g4 := link (link g3 r6.2 m1.2) m1.2 r7.2
  let g5 := link (link g4 r4.2 m2.2) m2.2 r6.2
  let g6 := link (link g5 r5.2 m3.2) m3.2 r7.2
  let g7 := link (link g6 m2.2 mc.2) mc.2 m3.2
  link (link g7 m0.2 mc.2) mc.2 m1.2

/-- `generateLinearStool` (`steps = 4`, plus the mid-height rest ring added
inside the second loop). -/
def generateLinearStool (ops : RealOps K) (params : FurnitureParams K)
    (g : Net K) : Net K :=
  let radiusTop := params.width / 2
  let radiusBot := params.width / (3 / 2)
  let build := (List.range 4).foldl
    (fun (st : Net K × List ℕ × List ℕ) (i : ℕ) =>
      let theta := ((i : K) / 4) * ops.pi * 2 + ops.pi / 4
      let rb := addNode st.1 (ops.cos theta * radiusBot) 0 (ops.sin theta * radiusBot)
      let rt := addNode rb.1 (ops.cos theta * radiusTop) params.height
        (ops.sin theta * radiusTop)
      (rt.1, st.2.1 ++ [rt.2], st.2.2 ++ [rb.2]))
    (g, [], [])
  (List.range 4).foldl
    (fun (g1 : Net K) (i : ℕ) =>
      let next := (i + 1) % 4
      let g2 := link g1 (build.2.2.getD i 0) (build.2.1.getD i 0)
      let g3 := link g2 (build.2.1.getD i 0) (build.2.1.getD next 0)
      let g4 := link g3 (build.2.2.getD i 0) (build.2.1.getD next 0)
      let restH := params.height * (3 / 10)
      let rRest := lerp radiusBot radiusTop (3 / 10)
      let angA := ((i : K) / 4) * ops.pi * 2 + ops.pi / 4
      let angB := (((i : K) + 1) / 4) * ops.pi * 2 + ops.pi / 4
      let ra := addNode g4 (ops.cos angA * rRest) restH (ops.sin angA * rRest)
      let rb2 := addNode ra.1 (ops.cos angB * rRest) restH (ops.sin angB * rRest)
      link rb2.1 ra.2 rb2.2)
    build.1

/-- The inline Linear Bench of `generateFurniture` (3 leg frames; the
previous frame's ids are back-computed as `nodes.length - 6/5`). -/
def generateLinearBench (params : FurnitureParams K) (g : Net K) : Net K :=
  let w2 := params.width / 2
  let d2 := params.depth / 2
  let dx := params.width / (3 - 1 : K)
  (List.range 3).foldl
    (fun (g1 : Net K) (i : ℕ) =>
      let x := -w2 + (i : K) * dx
      let fb := addNode g1 x 0 d2
      let bb := addNode fb.1 x 0 (-d2)
      let ft := addNode bb.1 x params.height d2
      let bt := addNode ft.1 x params.height (-d2)
      let g2 := link (link (link bt.1 fb.2 ft.2) bb.2 bt.2) ft.2 bt.2
      if 0 < i then
        let pf := g2.nodes.length - 6
        let pb := g2.nodes.length - 5
        link (link (link (link g2 pf ft.2) pb bt.2) pf bt.2) pb ft.2
      else g2)
    g

/-- The inline Linear Shelf of `generateFurniture` (4 levels; the previous
level's ids are back-computed as `nodes.length - 8/7/6/5`). -/
def generateLinearShelf (params : FurnitureParams K) (g : Net K) : Net K :=
  let w2 := params.width / 2
  let d2 := params.depth / 2
  let dy := params.height / (4 - 1 : K)
  (List.range 4).foldl
    (fun (g1 : Net K) (i : ℕ) =>
      let y := (i : K) * dy
      let nfl := addNode g1 (-w2) y d2
      let nfr := addNode nfl.1 w2 y d2
      let nbl := addNode nfr.1 (-w2) y (-d2)
      let nbr := addNode nbl.1 w2 y (-d2)
      let g2 := link (link (link (link nbr.1 nfl.2 nfr.2) nfr.2 nbr.2) nbr.2 nbl.2)
        nbl.2 nfl.2
      let g3 := link (link g2 nfl.2 nbr.2) nfr.2 nbl.2
      if 0 < i then
        let pfl := g3.nodes.length - 8
        let pfr := g3.nodes.length - 7
        let pbl := g3.nodes.length - 6
        let pbr := g3.nodes.length - 5
        link (link (link (link g3 pfl nfl.2) pfr nfr.2) pbl nbl.2) pbr nbr.2
      else g3)
    g

/-- Shared helper for the node-ring pushes of the Vase/Lamp/Mobius builders:
append `k` nodes at positions `pos 0 .. pos (k-1)` and collect their ids. -/
def pushRing (k : ℕ) (pos : ℕ → V3 K) (g : Net K) : Net K × List ℕ :=
  (List.range k).foldl
    (fun (st2 : Net K × List ℕ) (j : ℕ) =>
      let rr := addNode st2.1 (pos j).x (pos j).y (pos j).z
      (rr.1, st2.2 ++ [rr.2]))
    (g, [])

/-- Like `pushRing` but collecting `(id, position)` pairs onto an
accumulator, as the Recliner's `surfacePoints` build does. -/
def pushPts (k : ℕ) (pos : ℕ → V3 K) (g : Net K) (acc : List (ℕ × V3 K)) :
    Net K × List (ℕ × V3 K) :=
  (List.range k).foldl
    (fun (st2 : Net K × List (ℕ × V3 K)) (j : ℕ) =>
      let rr := addNode st2.1 (pos j).x (pos j).y (pos j).z
      (rr.1, st2.2 ++ [(rr.2, pos j)]))
    (g, acc)

/-- The inline Linear Vase of `generateFurniture` (`rings = 8`,
`segments = 6`, twisted and sine-bulged). -/
def generateLinearVase (ops : RealOps K) (params : FurnitureParams K)
    (g : Net K) : Net K :=
  let baseRadius := params.width * (4 / 10)
  ((List.range 8).foldl
    (fun (st : Net K × List ℕ) (r : ℕ) =>
      let y := ((r : K) / (8 - 1 : K)) * params.height
      let bulge := ops.sin (((r : K) / (8 - 1 : K)) * ops.pi) * (3 / 10)
      let rad := baseRadius + bulge + ((r : K) / 8) * (1 / 10)
      let built := pushRing 6
        (fun s =>
          let theta := ((s : K) / 6) * ops.pi * 2
          let twist := (r : K) * (2 / 10)
          ⟨ops.cos (theta + twist) * rad, y, ops.sin (theta + twist) * rad⟩)
        st.1
      let g2 := (List.range 6).foldl
        (fun (g3 : Net K) (s : ℕ) =>
          let nextS := (s + 1) % 6
          let g4 := link g3 (built.2.getD s 0) (built.2.getD nextS 0)
          if 0 < r then
            link (link g4 (st.2.getD s 0) (built.2.getD s 0)) (st.2.getD s 0)
              (built.2.getD nextS 0)
          else g4)
        built.1
      (g2, built.2))
    (g, [])).1

/-- The inter-layer links of the Lamp builder (layer `i > 0`): connect each
current-layer point to the point below, the next point below, and the next
point in its own layer. -/
def lampUpperLinks (curr prev : List ℕ) (g : Net K) : Net K :=
  (List.range 9).foldl
    (fun (g3 : Net K) (j : ℕ) =>
      link (link (link g3 (curr.getD j 0) (prev.getD j 0)) (curr.getD j 0)
        (prev.getD ((j + 1) % 9) 0)) (curr.getD j 0) (curr.getD ((j + 1) % 9) 0))
    g

/-- The base-ring links of the Lamp builder (layer `0`). -/
def lampRingLinks (curr : List ℕ) (g : Net K) : Net K :=
  (List.range 9).foldl
    (fun (g3 : Net K) (j : ℕ) => link g3 (curr.getD j 0) (curr.getD ((j + 1) % 9) 0))
    g

/-- The inline Linear Lamp of `generateFurniture` (`layers = 16` so 17 layer
rows, 9 points per layer, twisted noisy hourglass profile). -/
def generateLinearLamp (ops : RealOps K) (params : FurnitureParams K)
    (g : Net K) : Net K :=
  let radBase := params.width * (4 / 10)
  let radTop := params.width * (25 / 100)
  ((List.range 17).foldl
    (fun (st : Net K × List ℕ) (i : ℕ) =>
      let t := (i : K) / 16
      let y := t * params.height
      let profile := 1 - ops.sin (t * ops.pi) * (1 / 2)
      let currentRad := lerp radBase radTop t * profile
      let built := pushRing 9
        (fun j =>
          let angle := ((j : K) / 9) * ops.pi * 2
          let noiseX := ops.sin (angle * 3 + t * 10) * (1 / 10) * params.width
          let noiseZ := ops.cos (angle * 5 - t * 8) * (1 / 10) * params.width
          let twist := t * ops.pi * 4
          ⟨ops.cos (angle + twist) * currentRad + noiseX, y,
            ops.sin (angle + twist) * currentRad + noiseZ⟩)
        st.1
      let g2 :=
        if 0 < i then lampUpperLinks built.2 st.2 built.1
        else lampRingLinks built.2 built.1
      (g2, built.2))
    (g, [])).1

/-- The 64-row build phase of the Mobius builder: each row pushes 5 strip
cross-section nodes and is appended to the row grid. -/
def mobiusBuild (ops : RealOps K) (params : FurnitureParams K) (g : Net K) :
    Net K × List (List ℕ) :=
  let bigR := params.width * (8 / 10)
  let stripWidth := params.depth * (4 / 10)
  (List.range 64).foldl
    (fun (st : Net K × List (List ℕ)) (i : ℕ) =>
      let t := ((i : K) / 64) * ops.pi * 2
      let row := pushRing 5
        (fun j =>
          let sN := ((j : K) / 4) - 1 / 2
          let s := sN * stripWidth
          let mx := (bigR + s * ops.cos (t / 2)) * ops.cos t
          let my := (bigR + s * ops.cos (t / 2)) * ops.sin t
          let mz := s * ops.sin (t / 2)
          ⟨mx, mz + params.height / 2, my * (6 / 10)⟩)
        st.1
      (row.1, st.2 ++ [row.2]))
    (g, [])

/-- The edge phase of the Mobius builder, including the twist-consistent
wrap-around seam that reverses the cross-section index on closure. -/
def mobiusLinks (grid : List (List ℕ)) (g : Net K) : Net K :=
  (List.range 64).foldl
    (fun (g3 : Net K) (i : ℕ) =>
      let nextI := (i + 1) % 64
      (List.range 5).foldl
        (fun (g4 : Net K) (j : ℕ) =>
          let curr := (grid.getD i []).getD j 0
          let g5 :=
            if nextI = 0 then link g4 curr ((grid.getD 0 []).getD (4 - j) 0)
            else link g4 curr ((grid.getD nextI []).getD j 0)
          if j < 4 then
            let g6 := link g5 curr ((grid.getD i []).getD (j + 1) 0)
            if nextI ≠ 0 then link g6 curr ((grid.getD nextI []).getD (j + 1) 0)
            else g6
          else g5)
        g3)
    g

/-- The inline Mobius of `generateFurniture`: a 64×5 parametric half-twist
strip with a cross-section-reversing wrap-around seam and a final pass
clamping nodes below `y = 0` up to `0`. -/
def generateLinearMobius (ops : RealOps K) (params : FurnitureParams K)
    (g : Net K) : Net K :=
  let built := mobiusBuild ops params g
  let g2 := mobiusLinks built.2 built.1
  { g2 with nodes := g2.nodes.map (fun n => if n.y < 0 then ⟨n.x, 0, n.z⟩ else n) }

/-- The 31x13 jittered surface-point build phase of the Recliner builder. -/
def reclinerBuild (ops : RealOps K) (params : FurnitureParams K)
    (rng : ℕ → K) (g : Net K) : Net K × List (ℕ × V3 K) × ℕ :=
  let w := params.width
  let h := params.height
  let d := params.depth
  let p0 : V3 K := ⟨0, h * (9 / 10), -d / 2⟩
  let p1 : V3 K := ⟨0, h * (2 / 10), -d / 4⟩
  let p2 : V3 K := ⟨0, h * (6 / 10), d / 4⟩
  let p3 : V3 K := ⟨0, h * (3 / 10), d / 2⟩
  (List.range 31).foldl
    (fun (st : Net K × List (ℕ × V3 K) × ℕ) (i : ℕ) =>
      let t := (i : K) / 30
      let spineY := (cubicBezierPoint p0 p1 p2 p3 t).y
      let spineZ := lerp (-d / 2) (d / 2) t
      let jitterZ := (rng st.2.2 - 1 / 2) * (d / 30) * (8 / 10)
      let inner := pushPts 13
        (fun j =>
          let u := (j : K) / 12
          let x := (u - 1 / 2) * w
          let jitterX := (rng (st.2.2 + 1 + j) - 1 / 2) * (w / 12) * (8 / 10)
          let finalX := x + jitterX
          let finalZ := spineZ + jitterZ
          let cradle := ops.cos ((u - 1 / 2) * ops.pi) * (-(1 / 10)) * w
          let finalY := spineY + cradle
          ⟨finalX, finalY, finalZ⟩)
        st.1 st.2.1
      (inner.1, inner.2, st.2.2 + 14))
    (g, [], 0)

/-- The sliding-window distance-threshold connection phase of the Recliner. -/
def reclinerWindow (ops : RealOps K) (pts : List (ℕ × V3 K))
    (connectionDist : K) (g : Net K) : Net K :=
  (List.range pts.length).foldl
    (fun (g3 : Net K) (i : ℕ) =>
      (List.range' (i + 1) (min (i + 36) pts.length - (i + 1))).foldl
        (fun (g4 : Net K) (j : ℕ) =>
          let pA := pts.getD i (0, default)
          let pB := pts.getD j (0, default)
          if dist3 ops pA.2 pB.2 < connectionDist then link g4 pA.1 pB.1 else g4)
        g3)
    g

/-- The sparse random leg-drop phase of the Recliner. -/
def reclinerLegs (params : FurnitureParams K) (rng : ℕ → K)
    (pts : List (ℕ × V3 K)) (st0 : Net K × ℕ) : Net K × ℕ :=
  pts.foldl
    (fun (st : Net K × ℕ) p =>
      if 97 / 100 < rng st.2 ∧ p.2.y < params.height * (1 / 2) then
        let rr := addNode st.1 p.2.x 0 p.2.z
        (link rr.1 p.1 rr.2, st.2 + 1)
      else (st.1, st.2 + 1))
    st0

/-- `generateVoronoiReclinerOriginal`: the Bezier-spine surface scatter used
as the Recliner's Linear/default builder, with jittered grid, sliding-window
distance connection and sparse random leg drops. -/
def generateVoronoiReclinerOriginal (ops : RealOps K) (params : FurnitureParams K)
    (rng : ℕ → K) (g : Net K) : Net K :=
  let build := reclinerBuild ops params rng g
  let pts := build.2.1
  let connectionDist := (params.width / 12) * (9 / 5)
  let g2 := reclinerWindow ops pts connectionDist build.1
  (reclinerLegs params rng pts (g2, build.2.2)).1

/-- `generateFurniture`: dispatch to the volume generators for the three
volumetric patterns, otherwise to the per-archetype skeletal builders. -/
def generateFurniture (ops : RealOps K) (ty : FurnitureType)
    (params : FurnitureParams K) (rng : ℕ → K) : Net K :=
  if params.pattern = .Gyroid then generateVolumeGyroid ops params ty Net.empty
  else if params.pattern = .Triangular then
    generateVolumeTriangular ops params ty Net.empty
  else if params.pattern = .Voronoi then
    generateVolumeVoronoi ops ty params rng Net.empty
  else
    match ty with
    | .Chair => generateLinearChair params Net.empty
    | .Table => generateLinearTable params Net.empty
    | .Stool => generateLinearStool ops params Net.empty
    | .Recliner => generateVoronoiReclinerOriginal ops params rng Net.empty
    | .Bench => generateLinearBench params Net.empty
    | .Shelf => generateLinearShelf params Net.empty
    | .Vase => generateLinearVase ops params Net.empty
    | .Lamp => generateLinearLamp ops params Net.empty
    | .Mobius => generateLinearMobius ops params Net.empty

/-!  ### Edge-index invariants

`NetOK g` states every edge pair indexes into `nodes` and is not a
self-loop; it is the combined invariant behind claims C1 and C10.
-/

/-- Every edge endpoint is a valid node index and no edge is a self-loop. -/
def NetOK (g : Net K) : Prop :=
  ∀ e ∈ g.edges, e.1 < g.nodes.length ∧ e.2 < g.nodes.length ∧ e.1 ≠ e.2


/-- Both edge endpoints index into `nodes` (claim C1's invariant). -/
def EdgesInRange (g : Net K) : Prop :=
  ∀ e ∈ g.edges, e.1 < g.nodes.length ∧ e.2 < g.nodes.length

/-- Well-formedness of the grid-index node map: all stored node ids are below
`n`, keys are pairwise distinct (JavaScript `Map` semantics), and values are
pairwise distinct (each kept grid point has one flattened key and a fresh
id). -/
def MapOK (m : NodeMap) (n : ℕ) : Prop :=
  (∀ e ∈ m, e.2 < n) ∧ m.Pairwise (fun a b => a.1 ≠ b.1) ∧
    m.Pairwise (fun a b => a.2 ≠ b.2)

/-!  ## Theorems and supporting lemmas -/

lemma toUint32_lt (n : ℤ) : toUint32 n < 2 ^ 32 := by
  have h1 : n % 4294967296 < 4294967296 := Int.emod_lt_of_pos n (by norm_num)
  have h0 : 0 ≤ n % 4294967296 := Int.emod_nonneg n (by norm_num)
  unfold toUint32
  omega

lemma sar32_lt {a : ℕ} (k : ℕ) (hk : 1 ≤ k) (hk2 : k ≤ 31) (h : a < 2 ^ 32) :
    sar32 k a < 2 ^ 32 := by
  unfold sar32
  split
  · calc a / 2 ^ k ≤ a := Nat.div_le_self _ _
    _ < 2 ^ 32 := h
  · have hd : a / 2 ^ k < 2 ^ (32 - k) := by
      apply Nat.div_lt_of_lt_mul
      calc a < 2 ^ 32 := h
      _ = 2 ^ k * 2 ^ (32 - k) := by rw [← pow_add]; congr 1; omega
    have : 2 ^ (32 - k) ≤ 2 ^ 32 := Nat.pow_le_pow_right (by norm_num) (by omega)
    omega

/-- Claim C5: for all integers `x, y, z`, the lattice hash is a pure function
whose value lies in the half-open interval `[0, 1)`: the mixed 32-bit value
normalised by `2^32` never reaches `1` and never goes below `0`.
(Determinism is intrinsic: `hash3i` is a function of its arguments only.) -/
theorem hash3i_mem_Ico (x y z : ℤ) : 0 ≤ hash3i x y z ∧ hash3i x y z < 1 := by
  unfold hash3i
  have ha : toUint32 (x * 374761393 + y * 668265263 + z * 2147483647) < 2 ^ 32 :=
    toUint32_lt _
  have h1 : Nat.xor (toUint32 (x * 374761393 + y * 668265263 + z * 2147483647))
      (sar32 13 (toUint32 (x * 374761393 + y * 668265263 + z * 2147483647))) < 2 ^ 32 :=
    Nat.xor_lt_two_pow ha (sar32_lt 13 (by norm_num) (by norm_num) ha)
  have h2 : (Nat.xor (toUint32 (x * 374761393 + y * 668265263 + z * 2147483647))
      (sar32 13 (toUint32 (x * 374761393 + y * 668265263 + z * 2147483647)))
        * 1274126177) % 2 ^ 32 < 2 ^ 32 :=
    Nat.mod_lt _ (by norm_num)
  set n2 : ℕ := (Nat.xor (toUint32 (x * 374761393 + y * 668265263 + z * 2147483647))
      (sar32 13 (toUint32 (x * 374761393 + y * 668265263 + z * 2147483647)))
        * 1274126177) % 2 ^ 32 with hn2
  have h3 : Nat.xor n2 (sar32 16 n2) < 2 ^ 32 :=
    Nat.xor_lt_two_pow h2 (sar32_lt 16 (by norm_num) (by norm_num) h2)
  constructor
  · positivity
  · rw [div_lt_one (by norm_num)]
    have : ((Nat.xor n2 (sar32 16 n2) : ℕ) : ℚ) < ((2 ^ 32 : ℕ) : ℚ) := by
      exact_mod_cast h3
    calc ((Nat.xor n2 (sar32 16 n2) : ℕ) : ℚ) < ((2 ^ 32 : ℕ) : ℚ) := this
    _ = 4294967296 := by norm_num

lemma addScaled_zero (p n : V3 K) : addScaled p 0 n = p := by
  cases p; simp [addScaled]

/-- Claim C9: `transportNormal` with equal previous and current tangents
returns the previous normal unchanged, exactly: the rotation axis is the
cross product of a vector with itself, whose length `√0 = 0` falls under the
`1e-9` parallel-tangent guard. -/
theorem transportNormal_parallel (t n₀ : V3 ℝ) :
    transportNormal realOps t t n₀ = n₀ := by
  have hcross : cross3 (safeUnit realOps t) (safeUnit realOps t) = (⟨0, 0, 0⟩ : V3 ℝ) := by
    simp only [cross3, V3.mk.injEq]
    refine ⟨by ring, by ring, by ring⟩
  unfold transportNormal
  dsimp only
  rw [hcross]
  have h0 : vlen realOps (⟨0, 0, 0⟩ : V3 ℝ) = 0 := by
    simp [vlen, realOps]
  rw [h0]
  norm_num

/-- Claim C7: `serpentinize` on a polyline with fewer than 3 points, or with
total cumulative arc length below `1e-9`, returns the input unchanged for all
frequency, amplitude and taper-fraction values. -/
theorem serpentinize_degenerate (ops : RealOps K) (points : List (V3 K))
    (frequency amplitude taperFraction : K)
    (h : points.length < 3 ∨ totalLen ops points < 1 / 1000000000) :
    serpentinize ops points frequency amplitude taperFraction = points := by
  unfold serpentinize
  rcases h with h | h
  · rw [if_pos h]
  · by_cases h3 : points.length < 3
    · rw [if_pos h3]
    · rw [if_neg h3]
      dsimp only
      rw [if_pos h]

/-- Witness for C7 at a concrete two-point polyline. -/
theorem serpentinize_degenerate_witness :
    (([⟨0, 0, 0⟩, ⟨1, 2, 3⟩] : List (V3 ℚ)).length < 3 ∨
        totalLen qOps [⟨0, 0, 0⟩, ⟨1, 2, 3⟩] < 1 / 1000000000) ∧
      serpentinize qOps [⟨0, 0, 0⟩, ⟨1, 2, 3⟩] 1 1 (15 / 100) =
        [⟨0, 0, 0⟩, ⟨1, 2, 3⟩] :=
  ⟨Or.inl (by decide),
    serpentinize_degenerate qOps [⟨0, 0, 0⟩, ⟨1, 2, 3⟩] 1 1 (15 / 100)
      (Or.inl (by decide))⟩

lemma serpStep_out_amp_zero (ops : RealOps K) (points : List (V3 K))
    (cum : List K) (total frequency taperFraction : K)
    (st : V3 K × V3 K × List (V3 K)) (i : ℕ) :
    (serpStep ops points cum total frequency 0 taperFraction st i).2.2 =
      st.2.2 ++ [points.getD i default] := by
  simp [serpStep, addScaled_zero]

lemma serp_fold_amp_zero (ops : RealOps K) (points : List (V3 K))
    (cum : List K) (total frequency taperFraction : K) :
    ∀ m : ℕ, m ≤ points.length → ∀ st : V3 K × V3 K × List (V3 K),
      ((List.range m).foldl (serpStep ops points cum total frequency 0 taperFraction)
          st).2.2 = st.2.2 ++ points.take m := by
  intro m
  induction m with
  | zero => intro _ st; simp
  | succ m ih =>
    intro hm st
    rw [List.range_succ, List.foldl_append, List.foldl_cons, List.foldl_nil,
      serpStep_out_amp_zero, ih (Nat.le_of_succ_le hm) st, List.append_assoc]
    congr 1
    have hlt : m < points.length := hm
    rw [List.take_succ, List.getElem?_eq_getElem hlt]
    simp [List.getD_eq_getElem?_getD, List.getElem?_eq_getElem hlt]

/-- Claim C8: `serpentinize` with amplitude `0` is the identity on the input
polyline: every displacement is `sin θ · 0 · envelope = 0`, so each output
point equals the corresponding input point, for every frequency and taper
fraction. -/
theorem serpentinize_amp_zero (ops : RealOps K) (points : List (V3 K))
    (frequency taperFraction : K) :
    serpentinize ops points frequency 0 taperFraction = points := by
  unfold serpentinize
  by_cases h3 : points.length < 3
  · rw [if_pos h3]
  · rw [if_neg h3]
    dsimp only
    by_cases ht : totalLen ops points < 1 / 1000000000
    · rw [if_pos ht]
    · rw [if_neg ht]
      rw [serp_fold_amp_zero ops points _ _ _ _ points.length le_rfl]
      simp

lemma netOK_empty : NetOK (Net.empty : Net K) := by
  intro e he
  simp [Net.empty] at he

lemma foldl_inv {α σ : Type _} (P : σ → Prop) (l : List α) (f : σ → α → σ)
    (hstep : ∀ s a, a ∈ l → P s → P (f s a)) :
    ∀ s, P s → P (l.foldl f s) := by
  induction l with
  | nil => intro s h; exact h
  | cons a l ih =>
    intro s h
    exact ih (fun s2 b hb => hstep s2 b (List.mem_cons_of_mem a hb))
      (f s a) (hstep s a (List.mem_cons_self a l) h)

lemma foldl_range_inv {σ : Type _} (P : ℕ → σ → Prop) (n : ℕ) (f : σ → ℕ → σ)
    (hstep : ∀ i s, i < n → P i s → P (i + 1) (f s i)) :
    ∀ s, P 0 s → P n ((List.range n).foldl f s) := by
  induction n with
  | zero => intro s h; exact h
  | succ n ih =>
    intro s h
    rw [List.range_succ, List.foldl_append, List.foldl_cons, List.foldl_nil]
    exact hstep n _ (Nat.lt_succ_self n)
      (ih (fun i s2 hi => hstep i s2 (Nat.lt_succ_of_lt hi)) s h)

lemma getD_range' (s n i : ℕ) (h : i < n) : (List.range' s n).getD i 0 = s + i := by
  rw [List.getD_eq_getElem?_getD, List.getElem?_eq_getElem (by simpa using h)]
  simp

lemma netOK_link {g : Net K} {a b : ℕ} (h : NetOK g) (ha : a < g.nodes.length)
    (hb : b < g.nodes.length) (hab : a ≠ b) : NetOK (link g a b) := by
  intro e he
  simp only [link, List.mem_append, List.mem_singleton] at he
  rcases he with he | he
  · exact h e he
  · subst he; exact ⟨ha, hb, hab⟩

lemma link_nodes (g : Net K) (a b : ℕ) : (link g a b).nodes = g.nodes := rfl

lemma netOK_addNode {g : Net K} (h : NetOK g) (x y z : K) :
    NetOK (addNode g x y z).1 := by
  intro e he
  simp only [addNode] at he
  obtain ⟨h1, h2, h3⟩ := h e he
  refine ⟨?_, ?_, h3⟩ <;> simp [addNode] <;> omega

lemma addNode_nodes_length (g : Net K) (x y z : K) :
    (addNode g x y z).1.nodes.length = g.nodes.length + 1 := by
  simp [addNode]

lemma netOK_nodes_ext {g : Net K} (h : NetOK g) (nodes2 : List (V3 K))
    (hlen : g.nodes.length ≤ nodes2.length) : NetOK ⟨nodes2, g.edges⟩ := by
  intro e he
  obtain ⟨h1, h2, h3⟩ := h e he
  exact ⟨lt_of_lt_of_le h1 hlen, lt_of_lt_of_le h2 hlen, h3⟩

lemma netOK_chair (params : FurnitureParams K) :
    NetOK (generateLinearChair params Net.empty) := by
  intro e he
  obtain ⟨a, b⟩ := e
  simp only [generateLinearChair, addNode, link, Net.empty, Prod.mk.injEq,
    List.length_append, List.length_cons, List.length_nil, List.nil_append,
    List.mem_append, List.mem_singleton, List.length_singleton] at he ⊢
  omega

lemma netOK_table (params : FurnitureParams K) :
    NetOK (generateLinearTable params Net.empty) := by
  intro e he
  obtain ⟨a, b⟩ := e
  simp only [generateLinearTable, addNode, link, Net.empty, Prod.mk.injEq,
    List.length_append, List.length_cons, List.length_nil, List.nil_append,
    List.mem_append, List.mem_singleton, List.length_singleton] at he ⊢
  omega

lemma netOK_stool (ops : RealOps K) (params : FurnitureParams K) :
    NetOK (generateLinearStool ops params Net.empty) := by
  intro e he
  obtain ⟨a, b⟩ := e
  simp only [generateLinearStool, addNode, link, Net.empty, Prod.mk.injEq,
    show List.range 4 = [0, 1, 2, 3] from rfl,
    List.foldl_cons, List.foldl_nil,
    List.length_append, List.length_cons, List.length_nil, List.nil_append,
    List.mem_append, List.mem_singleton, List.length_singleton, List.getD_cons_zero,
    List.getD_cons_succ, List.cons_append, List.singleton_append,
    show (3 + 1) % 4 = 0 from rfl, List.mem_cons, List.not_mem_nil, or_false] at he ⊢
  omega

lemma netOK_bench (params : FurnitureParams K) :
    NetOK (generateLinearBench params Net.empty) := by
  intro e he
  obtain ⟨a, b⟩ := e
  simp only [generateLinearBench, addNode, link, Net.empty, Prod.mk.injEq,
    show List.range 3 = [0, 1, 2] from rfl,
    List.foldl_cons, List.foldl_nil, Nat.lt_irrefl, Nat.zero_lt_one, if_true, if_false,
    Nat.zero_lt_succ, Nat.lt_succ_self, decide_True,
    List.length_append, List.length_cons, List.length_nil, List.nil_append,
    List.mem_append, List.mem_singleton, List.length_singleton,
    List.cons_append, List.singleton_append, List.mem_cons,
    List.not_mem_nil, or_false] at he ⊢
  omega

lemma netOK_shelf (params : FurnitureParams K) :
    NetOK (generateLinearShelf params Net.empty) := by
  intro e he
  obtain ⟨a, b⟩ := e
  simp only [generateLinearShelf, addNode, link, Net.empty, Prod.mk.injEq,
    show List.range 4 = [0, 1, 2, 3] from rfl,
    List.foldl_cons, List.foldl_nil, Nat.lt_irrefl, Nat.zero_lt_one, if_true, if_false,
    Nat.zero_lt_succ, Nat.lt_succ_self, decide_True,
    List.length_append, List.length_cons, List.length_nil, List.nil_append,
    List.mem_append, List.mem_singleton, List.length_singleton,
    List.cons_append, List.singleton_append, List.mem_cons,
    List.not_mem_nil, or_false] at he ⊢
  omega

lemma pushRing_core (k : ℕ) (pos : ℕ → V3 K) (g : Net K) :
    (pushRing k pos g).1.nodes.length = g.nodes.length + k ∧
      (pushRing k pos g).1.edges = g.edges ∧
      (pushRing k pos g).2 = List.range' g.nodes.length k := by
  unfold pushRing
  refine foldl_range_inv
    (P := fun j (st : Net K × List ℕ) => st.1.nodes.length = g.nodes.length + j ∧
      st.1.edges = g.edges ∧ st.2 = List.range' g.nodes.length j)
    k _ ?_ (g, []) (by simp)
  intro j st hj h
  obtain ⟨h1, h2, h3⟩ := h
  dsimp only
  refine ⟨by rw [addNode_nodes_length, h1]; omega, by simpa [addNode] using h2, ?_⟩
  rw [h3, List.range'_1_concat]
  simp [addNode, h1]

lemma pushRing_nodes_length (k : ℕ) (pos : ℕ → V3 K) (g : Net K) :
    (pushRing k pos g).1.nodes.length = g.nodes.length + k :=
  (pushRing_core k pos g).1

lemma pushRing_edges (k : ℕ) (pos : ℕ → V3 K) (g : Net K) :
    (pushRing k pos g).1.edges = g.edges :=
  (pushRing_core k pos g).2.1

lemma pushRing_ids (k : ℕ) (pos : ℕ → V3 K) (g : Net K) :
    (pushRing k pos g).2 = List.range' g.nodes.length k :=
  (pushRing_core k pos g).2.2

lemma netOK_pushRing {g : Net K} (h : NetOK g) (k : ℕ) (pos : ℕ → V3 K) :
    NetOK (pushRing k pos g).1 := by
  intro e he
  rw [pushRing_edges] at he
  obtain ⟨h1, h2, h3⟩ := h e he
  rw [pushRing_nodes_length]
  exact ⟨by omega, by omega, h3⟩

lemma mapRange_getD {α : Type _} (f : ℕ → α) (n i : ℕ) (d : α) (h : i < n) :
    ((List.range n).map f).getD i d = f i := by
  rw [List.getD_eq_getElem?_getD, List.getElem?_eq_getElem (by simpa using h)]
  simp

lemma netOK_vase_round {g : Net K} (r : ℕ) (pos : ℕ → V3 K) (prev : List ℕ)
    (hOK : NetOK g) (hlen : g.nodes.length = 6 * r)
    (hprev : 0 < r → prev = List.range' (6 * (r - 1)) 6) :
    NetOK ((List.range 6).foldl
        (fun (g3 : Net K) (s : ℕ) =>
          let nextS := (s + 1) % 6
          let g4 := link g3 ((pushRing 6 pos g).2.getD s 0)
            ((pushRing 6 pos g).2.getD nextS 0)
          if 0 < r then
            link (link g4 (prev.getD s 0) ((pushRing 6 pos g).2.getD s 0))
              (prev.getD s 0) ((pushRing 6 pos g).2.getD nextS 0)
          else g4)
        (pushRing 6 pos g).1) ∧
      ((List.range 6).foldl
        (fun (g3 : Net K) (s : ℕ) =>
          let nextS := (s + 1) % 6
          let g4 := link g3 ((pushRing 6 pos g).2.getD s 0)
            ((pushRing 6 pos g).2.getD nextS 0)
          if 0 < r then
            link (link g4 (prev.getD s 0) ((pushRing 6 pos g).2.getD s 0))
              (prev.getD s 0) ((pushRing 6 pos g).2.getD nextS 0)
          else g4)
        (pushRing 6 pos g).1).nodes.length = 6 * r + 6 := by
  refine foldl_inv (P := fun g3 : Net K => NetOK g3 ∧ g3.nodes.length = 6 * r + 6)
    _ _ ?_ _ ⟨netOK_pushRing hOK 6 pos, by rw [pushRing_nodes_length, hlen]⟩
  intro g3 s hs hg3
  obtain ⟨hg3OK, hg3len⟩ := hg3
  have hs6 : s < 6 := List.mem_range.mp hs
  have hmod : (s + 1) % 6 < 6 := Nat.mod_lt _ (by omega)
  dsimp only
  rw [pushRing_ids, hlen, getD_range' _ _ _ hs6, getD_range' _ _ _ hmod]
  by_cases hr0 : 0 < r
  · rw [if_pos hr0, hprev hr0, getD_range' _ _ _ hs6]
    have h1 : NetOK (link g3 (6 * r + s) (6 * r + (s + 1) % 6)) :=
      netOK_link hg3OK (by omega) (by omega) (by omega)
    have h2 : NetOK (link (link g3 (6 * r + s) (6 * r + (s + 1) % 6))
        (6 * (r - 1) + s) (6 * r + s)) :=
      netOK_link h1 (by simp only [link_nodes]; omega)
        (by simp only [link_nodes]; omega) (by omega)
    exact ⟨netOK_link h2 (by simp only [link_nodes]; omega)
        (by simp only [link_nodes]; omega) (by omega),
      by simp only [link_nodes]; omega⟩
  · rw [if_neg hr0]
    exact ⟨netOK_link hg3OK (by omega) (by omega) (by omega),
      by simp only [link_nodes]; omega⟩

lemma netOK_vase (ops : RealOps K) (params : FurnitureParams K) :
    NetOK (generateLinearVase ops params Net.empty) := by
  unfold generateLinearVase
  refine (foldl_range_inv
    (P := fun r (st : Net K × List ℕ) => (NetOK st.1 ∧ st.1.nodes.length = 6 * r) ∧
      (0 < r → st.2 = List.range' (6 * (r - 1)) 6))
    8 _ ?_ (Net.empty, []) ⟨⟨netOK_empty, by simp [Net.empty]⟩, by omega⟩).1.1
  intro r st hr h
  obtain ⟨⟨hOK, hlen⟩, hprev⟩ := h
  dsimp only
  obtain ⟨hOK2, hlen2⟩ := netOK_vase_round r _ st.2 hOK hlen hprev
  refine ⟨⟨hOK2, by rw [hlen2]; omega⟩, fun _ => ?_⟩
  rw [pushRing_ids, hlen]
  have he6 : 6 * r = 6 * (r + 1 - 1) := by omega
  rw [he6]

lemma lampUpperLinks_nodes (curr prev : List ℕ) (g : Net K) :
    (lampUpperLinks curr prev g).nodes = g.nodes := by
  unfold lampUpperLinks
  refine foldl_inv (P := fun g3 : Net K => g3.nodes = g.nodes) _ _ ?_ _ rfl
  intro g3 j hj h3
  dsimp only
  simp only [link_nodes]
  exact h3

lemma lampRingLinks_nodes (curr : List ℕ) (g : Net K) :
    (lampRingLinks curr g).nodes = g.nodes := by
  unfold lampRingLinks
  refine foldl_inv (P := fun g3 : Net K => g3.nodes = g.nodes) _ _ ?_ _ rfl
  intro g3 j hj h3
  dsimp only
  simp only [link_nodes]
  exact h3

lemma netOK_lampUpperLinks {g : Net K} (i : ℕ) (curr prev : List ℕ)
    (hOK : NetOK g) (hcurr : curr = List.range' (9 * i) 9)
    (hprev : prev = List.range' (9 * (i - 1)) 9) (hi : 0 < i)
    (hlen : g.nodes.length = 9 * i + 9) :
    NetOK (lampUpperLinks curr prev g) := by
  unfold lampUpperLinks
  refine foldl_inv (P := fun g3 : Net K => NetOK g3 ∧ g3.nodes.length = 9 * i + 9)
    _ _ ?_ _ ⟨hOK, hlen⟩ |>.1
  intro g3 j hj h3
  obtain ⟨h3OK, h3len⟩ := h3
  have hj9 : j < 9 := List.mem_range.mp hj
  have hmod : (j + 1) % 9 < 9 := Nat.mod_lt _ (by omega)
  rw [hcurr, hprev]
  have e1 : (List.range' (9 * i) 9).getD j 0 = 9 * i + j := getD_range' _ _ _ hj9
  have e2 : (List.range' (9 * (i - 1)) 9).getD j 0 = 9 * (i - 1) + j :=
    getD_range' _ _ _ hj9
  have e3 : (List.range' (9 * (i - 1)) 9).getD ((j + 1) % 9) 0 =
      9 * (i - 1) + (j + 1) % 9 := getD_range' _ _ _ hmod
  have e4 : (List.range' (9 * i) 9).getD ((j + 1) % 9) 0 = 9 * i + (j + 1) % 9 :=
    getD_range' _ _ _ hmod
  rw [e1, e2, e3, e4]
  have k1 : NetOK (link g3 (9 * i + j) (9 * (i - 1) + j)) :=
    netOK_link h3OK (by omega) (by omega) (by omega)
  have k2 : NetOK (link (link g3 (9 * i + j) (9 * (i - 1) + j)) (9 * i + j)
      (9 * (i - 1) + (j + 1) % 9)) :=
    netOK_link k1 (by simp only [link_nodes]; omega) (by simp only [link_nodes]; omega)
      (by omega)
  refine ⟨netOK_link k2 (by simp only [link_nodes]; omega)
    (by simp only [link_nodes]; omega) (by omega), by simp only [link_nodes]; omega⟩

lemma netOK_lampRingLinks {g : Net K} (L : ℕ) (curr : List ℕ)
    (hOK : NetOK g) (hcurr : curr = List.range' L 9)
    (hlen : g.nodes.length = L + 9) :
    NetOK (lampRingLinks curr g) := by
  unfold lampRingLinks
  refine foldl_inv (P := fun g3 : Net K => NetOK g3 ∧ g3.nodes.length = L + 9)
    _ _ ?_ _ ⟨hOK, hlen⟩ |>.1
  intro g3 j hj h3
  obtain ⟨h3OK, h3len⟩ := h3
  have hj9 : j < 9 := List.mem_range.mp hj
  have hmod : (j + 1) % 9 < 9 := Nat.mod_lt _ (by omega)
  rw [hcurr]
  rw [getD_range' _ _ _ hj9, getD_range' _ _ _ hmod]
  exact ⟨netOK_link h3OK (by omega) (by omega) (by omega),
    by simp only [link_nodes]; omega⟩

lemma netOK_lamp (ops : RealOps K) (params : FurnitureParams K) :
    NetOK (generateLinearLamp ops params Net.empty) := by
  unfold generateLinearLamp
  refine (foldl_range_inv
    (P := fun i (st : Net K × List ℕ) => (NetOK st.1 ∧ st.1.nodes.length = 9 * i) ∧
      (0 < i → st.2 = List.range' (9 * (i - 1)) 9))
    17 _ ?_ (Net.empty, []) ⟨⟨netOK_empty, by simp [Net.empty]⟩, by omega⟩).1.1
  intro i st hi h
  obtain ⟨⟨hOK, hlen⟩, hprev⟩ := h
  dsimp only
  have hidval : 9 * i = 9 * (i + 1 - 1) := by omega
  by_cases hi0 : 0 < i
  · rw [if_pos hi0]
    refine ⟨⟨?_, ?_⟩, fun _ => ?_⟩
    · exact netOK_lampUpperLinks i _ st.2 (netOK_pushRing hOK 9 _)
        (by rw [pushRing_ids, hlen]) (hprev hi0) hi0
        (by rw [pushRing_nodes_length, hlen])
    · rw [lampUpperLinks_nodes, pushRing_nodes_length, hlen]
      omega
    · rw [pushRing_ids, hlen, hidval]
  · rw [if_neg hi0]
    refine ⟨⟨?_, ?_⟩, fun _ => ?_⟩
    · exact netOK_lampRingLinks (9 * i) _ (netOK_pushRing hOK 9 _)
        (by rw [pushRing_ids, hlen]) (by rw [pushRing_nodes_length, hlen])
    · rw [lampRingLinks_nodes, pushRing_nodes_length, hlen]
      omega
    · rw [pushRing_ids, hlen, hidval]

lemma netOK_of_edges_nil {g : Net K} (h : g.edges = []) : NetOK g := by
  intro e he
  rw [h] at he
  simp at he

lemma netOK_map_nodes {g : Net K} (h : NetOK g) (f : V3 K → V3 K) :
    NetOK { g with nodes := g.nodes.map f } := by
  intro e he
  obtain ⟨h1, h2, h3⟩ := h e he
  simp only [List.length_map]
  exact ⟨h1, h2, h3⟩

lemma mobiusBuild_spec (ops : RealOps K) (params : FurnitureParams K) (g : Net K) :
    (mobiusBuild ops params g).1.nodes.length = g.nodes.length + 5 * 64 ∧
      (mobiusBuild ops params g).1.edges = g.edges ∧
      (mobiusBuild ops params g).2 =
        (List.range 64).map (fun r2 => List.range' (g.nodes.length + 5 * r2) 5) := by
  unfold mobiusBuild
  refine foldl_range_inv
    (P := fun i (st : Net K × List (List ℕ)) =>
      st.1.nodes.length = g.nodes.length + 5 * i ∧ st.1.edges = g.edges ∧
        st.2 = (List.range i).map (fun r2 => List.range' (g.nodes.length + 5 * r2) 5))
    64 _ ?_ (g, []) (by simp)
  intro i st hi h
  obtain ⟨h1, h2, h3⟩ := h
  dsimp only
  refine ⟨by rw [pushRing_nodes_length, h1]; omega, by rw [pushRing_edges]; exact h2, ?_⟩
  rw [h3, pushRing_ids, h1, List.range_succ, List.map_append]
  simp

lemma mobiusLinks_nodes (grid : List (List ℕ)) (g : Net K) :
    (mobiusLinks grid g).nodes = g.nodes := by
  unfold mobiusLinks
  refine foldl_inv (P := fun g3 : Net K => g3.nodes = g.nodes) _ _ ?_ _ rfl
  intro g3 i hi h3
  dsimp only
  refine foldl_inv (P := fun g4 : Net K => g4.nodes = g.nodes) _ _ ?_ _ h3
  intro g4 j hj h4
  dsimp only
  split_ifs <;> simp only [link_nodes] <;> exact h4

lemma netOK_mobiusLinks {g : Net K} (L : ℕ) (grid : List (List ℕ))
    (hOK : NetOK g)
    (hgrid : grid = (List.range 64).map (fun r2 => List.range' (L + 5 * r2) 5))
    (hlen : g.nodes.length = L + 5 * 64) :
    NetOK (mobiusLinks grid g) := by
  unfold mobiusLinks
  refine foldl_inv (P := fun g3 : Net K => NetOK g3 ∧ g3.nodes.length = L + 5 * 64)
    _ _ ?_ _ ⟨hOK, hlen⟩ |>.1
  intro g3 i hi h3
  obtain ⟨h3OK, h3len⟩ := h3
  have hi64 : i < 64 := List.mem_range.mp hi
  dsimp only
  refine foldl_inv (P := fun g4 : Net K => NetOK g4 ∧ g4.nodes.length = L + 5 * 64)
    _ _ ?_ _ ⟨h3OK, h3len⟩
  intro g4 j hj h4
  obtain ⟨h4OK, h4len⟩ := h4
  have hj5 : j < 5 := List.mem_range.mp hj
  rw [hgrid]
  rw [mapRange_getD _ _ _ _ hi64,
    mapRange_getD (fun r2 => List.range' (L + 5 * r2) 5) 64 0 [] (by omega),
    mapRange_getD (fun r2 => List.range' (L + 5 * r2) 5) 64 ((i + 1) % 64) []
      (Nat.mod_lt _ (by omega))]
  rw [getD_range' _ _ _ hj5, getD_range' _ _ _ (show 4 - j < 5 by omega),
    getD_range' (L + 5 * ((i + 1) % 64)) _ _ hj5]
  split_ifs
  · rw [getD_range' _ _ _ (show j + 1 < 5 by omega),
      getD_range' (L + 5 * ((i + 1) % 64)) _ _ (show j + 1 < 5 by omega)]
    have k1 : NetOK (link g4 (L + 5 * i + j) (L + 5 * ((i + 1) % 64) + j)) :=
      netOK_link h4OK (by omega) (by omega) (by omega)
    have k2 : NetOK (link (link g4 (L + 5 * i + j) (L + 5 * ((i + 1) % 64) + j))
        (L + 5 * i + j) (L + 5 * i + (j + 1))) :=
      netOK_link k1 (by simp only [link_nodes]; omega)
        (by simp only [link_nodes]; omega) (by omega)
    exact ⟨netOK_link k2 (by simp only [link_nodes]; omega)
        (by simp only [link_nodes]; omega) (by omega),
      by simp only [link_nodes]; omega⟩
  · rw [getD_range' _ _ _ (show j + 1 < 5 by omega)]
    have k1 : NetOK (link g4 (L + 5 * i + j) (L + 5 * 0 + (4 - j))) :=
      netOK_link h4OK (by omega) (by omega) (by omega)
    exact ⟨netOK_link k1 (by simp only [link_nodes]; omega)
        (by simp only [link_nodes]; omega) (by omega),
      by simp only [link_nodes]; omega⟩
  · omega
  · exact ⟨netOK_link h4OK (by omega) (by omega) (by omega),
      by simp only [link_nodes]; omega⟩
  · exact ⟨netOK_link h4OK (by omega) (by omega) (by omega),
      by simp only [link_nodes]; omega⟩

lemma netOK_mobius (ops : RealOps K) (params : FurnitureParams K) :
    NetOK (generateLinearMobius ops params Net.empty) := by
  unfold generateLinearMobius
  obtain ⟨hbl, hbe, hbg⟩ := mobiusBuild_spec ops params (Net.empty : Net K)
  refine netOK_map_nodes ?_ _
  exact netOK_mobiusLinks (Net.empty : Net K).nodes.length _
    (netOK_of_edges_nil (by rw [hbe]; rfl)) hbg hbl

lemma pushPts_core (k : ℕ) (pos : ℕ → V3 K) (g : Net K) (acc : List (ℕ × V3 K)) :
    (pushPts k pos g acc).1.nodes.length = g.nodes.length + k ∧
      (pushPts k pos g acc).1.edges = g.edges ∧
      (pushPts k pos g acc).2.map Prod.fst =
        acc.map Prod.fst ++ List.range' g.nodes.length k := by
  unfold pushPts
  refine foldl_range_inv
    (P := fun j (st : Net K × List (ℕ × V3 K)) =>
      st.1.nodes.length = g.nodes.length + j ∧ st.1.edges = g.edges ∧
        st.2.map Prod.fst = acc.map Prod.fst ++ List.range' g.nodes.length j)
    k _ ?_ (g, acc) (by simp)
  intro j st hj h
  obtain ⟨h1, h2, h3⟩ := h
  dsimp only
  refine ⟨by rw [addNode_nodes_length, h1]; omega, by simpa [addNode] using h2, ?_⟩
  rw [List.map_append, h3, List.range'_1_concat, ← List.append_assoc]
  simp [addNode, h1]

lemma reclinerBuild_spec (ops : RealOps K) (params : FurnitureParams K)
    (rng : ℕ → K) :
    (reclinerBuild ops params rng Net.empty).1.nodes.length = 13 * 31 ∧
      (reclinerBuild ops params rng Net.empty).1.edges = [] ∧
      (reclinerBuild ops params rng Net.empty).2.1.map Prod.fst =
        List.range' 0 (13 * 31) := by
  unfold reclinerBuild
  refine foldl_range_inv
    (P := fun i (st : Net K × List (ℕ × V3 K) × ℕ) =>
      st.1.nodes.length = 13 * i ∧ st.1.edges = [] ∧
        st.2.1.map Prod.fst = List.range' 0 (13 * i))
    31 _ ?_ (Net.empty, [], 0) (by simp [Net.empty])
  intro i st hi h
  obtain ⟨h1, h2, h3⟩ := h
  dsimp only
  obtain ⟨p1, p2, p3⟩ := pushPts_core 13
    (fun j =>
      let u := (j : K) / 12
      let x := (u - 1 / 2) * params.width
      let jitterX := (rng (st.2.2 + 1 + j) - 1 / 2) * (params.width / 12) * (8 / 10)
      ⟨x + jitterX,
        (cubicBezierPoint ⟨0, params.height * (9 / 10), -params.depth / 2⟩
            ⟨0, params.height * (2 / 10), -params.depth / 4⟩
            ⟨0, params.height * (6 / 10), params.depth / 4⟩
            ⟨0, params.height * (3 / 10), params.depth / 2⟩ ((i : K) / 30)).y +
          ops.cos ((u - 1 / 2) * ops.pi) * (-(1 / 10)) * params.width,
        lerp (-params.depth / 2) (params.depth / 2) ((i : K) / 30) +
          (rng st.2.2 - 1 / 2) * (params.depth / 30) * (8 / 10)⟩)
    st.1 st.2.1
  refine ⟨by rw [p1, h1]; omega, by rw [p2]; exact h2, ?_⟩
  rw [p3, h3, h1]
  have happ := List.range'_append_1 0 (13 * i) 13
  rw [Nat.zero_add] at happ
  rw [happ]
  congr 1
  omega

lemma pts_getD_fst (pts : List (ℕ × V3 K)) (n i : ℕ)
    (h : pts.map Prod.fst = List.range' 0 n) (hi : i < pts.length) :
    (pts.getD i (0, default)).1 = i := by
  have h1 : pts.getD i (0, default) = pts[i] := by
    rw [List.getD_eq_getElem?_getD, List.getElem?_eq_getElem hi]
    rfl
  rw [h1]
  have h2 : (pts.map Prod.fst)[i]? = some i := by
    rw [h]
    have hi2 : i < (List.range' 0 n).length := by
      have := congrArg List.length h
      simp at this
      simpa using lt_of_lt_of_eq hi this
    rw [List.getElem?_eq_getElem hi2]
    simp [List.getElem_range']
  rw [List.getElem?_map, List.getElem?_eq_getElem hi] at h2
  simpa using h2

lemma mem_range'_bounds {j s n : ℕ} (h : j ∈ List.range' s n) :
    s ≤ j ∧ j < s + n := by
  obtain ⟨i, hi, rfl⟩ := List.mem_range'.mp h
  omega

lemma reclinerWindow_nodes (ops : RealOps K) (pts : List (ℕ × V3 K))
    (cd : K) (g : Net K) : (reclinerWindow ops pts cd g).nodes = g.nodes := by
  unfold reclinerWindow
  refine foldl_inv (P := fun g3 : Net K => g3.nodes = g.nodes) _ _ ?_ _ rfl
  intro g3 i hi h3
  refine foldl_inv (P := fun g4 : Net K => g4.nodes = g.nodes) _ _ ?_ _ h3
  intro g4 j hj h4
  dsimp only
  split
  · simp only [link_nodes]
    exact h4
  · exact h4

lemma netOK_reclinerWindow {g : Net K} (ops : RealOps K)
    (pts : List (ℕ × V3 K)) (cd : K) (hOK : NetOK g)
    (hids : pts.map Prod.fst = List.range' 0 pts.length)
    (hle : pts.length ≤ g.nodes.length) :
    NetOK (reclinerWindow ops pts cd g) := by
  unfold reclinerWindow
  refine foldl_inv
    (P := fun g3 : Net K => NetOK g3 ∧ g3.nodes.length = g.nodes.length) _ _ ?_ _
    ⟨hOK, rfl⟩ |>.1
  intro g3 i hi h3
  have hi2 : i < pts.length := List.mem_range.mp hi
  refine foldl_inv
    (P := fun g4 : Net K => NetOK g4 ∧ g4.nodes.length = g.nodes.length) _ _ ?_ _ h3
  intro g4 j hj h4
  obtain ⟨h4OK, h4len⟩ := h4
  obtain ⟨hj1, hj2⟩ := mem_range'_bounds hj
  have hj3 : j < pts.length := by omega
  dsimp only
  rw [pts_getD_fst pts pts.length i hids hi2, pts_getD_fst pts pts.length j hids hj3]
  split
  · exact ⟨netOK_link h4OK (by omega) (by omega) (by omega),
      by simp only [link_nodes]; omega⟩
  · exact ⟨h4OK, h4len⟩

lemma netOK_reclinerLegs {g : Net K} (params : FurnitureParams K) (rng : ℕ → K)
    (pts : List (ℕ × V3 K)) (k0 : ℕ) (hOK : NetOK g)
    (hbound : ∀ p ∈ pts, p.1 < g.nodes.length) :
    NetOK (reclinerLegs params rng pts (g, k0)).1 := by
  unfold reclinerLegs
  refine foldl_inv
    (P := fun (st : Net K × ℕ) => NetOK st.1 ∧ g.nodes.length ≤ st.1.nodes.length)
    _ _ ?_ (g, k0) ⟨hOK, le_rfl⟩ |>.1
  intro st p hp hst
  obtain ⟨hstOK, hstle⟩ := hst
  have hpb : p.1 < g.nodes.length := hbound p hp
  dsimp only
  split
  · refine ⟨?_, ?_⟩
    · refine netOK_link (netOK_addNode hstOK _ _ _) ?_ ?_ ?_
      · simp only [addNode, List.length_append, List.length_cons, List.length_nil]
        omega
      · simp only [addNode, List.length_append, List.length_cons, List.length_nil]
        omega
      · simp only [addNode]
        omega
    · simp only [link_nodes, addNode, List.length_append, List.length_cons,
        List.length_nil]
      omega
  · exact ⟨hstOK, hstle⟩

lemma netOK_recliner (ops : RealOps K) (params : FurnitureParams K)
    (rng : ℕ → K) :
    NetOK (generateVoronoiReclinerOriginal ops params rng Net.empty) := by
  unfold generateVoronoiReclinerOriginal
  obtain ⟨hbl, hbe, hbp⟩ := reclinerBuild_spec ops params rng
  have hplen : (reclinerBuild ops params rng Net.empty).2.1.length = 13 * 31 := by
    have := congrArg List.length hbp
    simpa using this
  have hids : (reclinerBuild ops params rng Net.empty).2.1.map Prod.fst =
      List.range' 0 (reclinerBuild ops params rng Net.empty).2.1.length := by
    rw [hplen]
    exact hbp
  have hwOK : NetOK (reclinerWindow ops (reclinerBuild ops params rng Net.empty).2.1
      ((params.width / 12) * (9 / 5)) (reclinerBuild ops params rng Net.empty).1) :=
    netOK_reclinerWindow ops _ _ (netOK_of_edges_nil hbe) hids (by omega)
  refine netOK_reclinerLegs params rng _ _ hwOK ?_
  intro p hp
  rw [reclinerWindow_nodes, hbl]
  have : p.1 ∈ (reclinerBuild ops params rng Net.empty).2.1.map Prod.fst :=
    List.mem_map_of_mem _ hp
  rw [hbp] at this
  obtain ⟨h1, h2⟩ := mem_range'_bounds this
  omega

lemma vorLoop_inv (ops : RealOps K) (ty : FurnitureType)
    (params : FurnitureParams K) (count : ℕ) (rng : ℕ → K) :
    ∀ (fuel : ℕ) (st : Net K × List (ℕ × V3 K) × ℕ),
      st.1.edges = [] ∧ st.2.1.map Prod.fst = List.range' 0 st.1.nodes.length ∧
        st.2.1.length = st.1.nodes.length ∧ st.2.1.length ≤ count →
      (vorLoop ops ty params count rng fuel st).1.edges = [] ∧
        (vorLoop ops ty params count rng fuel st).2.1.map Prod.fst =
          List.range' 0 (vorLoop ops ty params count rng fuel st).1.nodes.length ∧
        (vorLoop ops ty params count rng fuel st).2.1.length =
          (vorLoop ops ty params count rng fuel st).1.nodes.length ∧
        (vorLoop ops ty params count rng fuel st).2.1.length ≤ count := by
  intro fuel
  induction fuel with
  | zero => intro st h; simpa [vorLoop] using h
  | succ fuel ih =>
    intro st h
    obtain ⟨h1, h2, h3, h4⟩ := h
    rw [vorLoop]
    dsimp only
    split
    · split
      · apply ih
        refine ⟨by simpa [addNode] using h1, ?_, ?_, ?_⟩
        · simp only [addNode, List.map_append, List.length_append,
            List.length_cons, List.length_nil, List.map_cons, List.map_nil]
          rw [h2, List.range'_1_concat]
          simp
        · simp only [addNode, List.length_append, List.length_cons, List.length_nil]
          omega
        · simp only [List.length_append, List.length_cons, List.length_nil]
          omega
      · exact ih _ ⟨h1, h2, h3, h4⟩
    · exact ⟨h1, h2, h3, h4⟩

lemma vorConnect_nodes (ops : RealOps K) (pts : List (ℕ × V3 K)) (thr : K)
    (g : Net K) : (vorConnect ops pts thr g).nodes = g.nodes := by
  unfold vorConnect
  refine foldl_inv (P := fun g3 : Net K => g3.nodes = g.nodes) _ _ ?_ _ rfl
  intro g3 i hi h3
  refine foldl_inv (P := fun g4 : Net K => g4.nodes = g.nodes) _ _ ?_ _ h3
  intro g4 j hj h4
  dsimp only
  split
  · simp only [link_nodes]
    exact h4
  · exact h4

lemma netOK_vorConnect {g : Net K} (ops : RealOps K) (pts : List (ℕ × V3 K))
    (thr : K) (hOK : NetOK g)
    (hids : pts.map Prod.fst = List.range' 0 pts.length)
    (hle : pts.length ≤ g.nodes.length) :
    NetOK (vorConnect ops pts thr g) := by
  unfold vorConnect
  refine foldl_inv
    (P := fun g3 : Net K => NetOK g3 ∧ g3.nodes.length = g.nodes.length) _ _ ?_ _
    ⟨hOK, rfl⟩ |>.1
  intro g3 i hi h3
  have hi2 : i < pts.length := List.mem_range.mp hi
  refine foldl_inv
    (P := fun g4 : Net K => NetOK g4 ∧ g4.nodes.length = g.nodes.length) _ _ ?_ _ h3
  intro g4 j hj h4
  obtain ⟨h4OK, h4len⟩ := h4
  obtain ⟨hj1, hj2⟩ := mem_range'_bounds hj
  have hj3 : j < pts.length := by omega
  dsimp only
  rw [pts_getD_fst pts pts.length i hids hi2, pts_getD_fst pts pts.length j hids hj3]
  split
  · exact ⟨netOK_link h4OK (by omega) (by omega) (by omega),
      by simp only [link_nodes]; omega⟩
  · exact ⟨h4OK, h4len⟩

lemma netOK_voronoi (ops : RealOps K) (ty : FurnitureType)
    (params : FurnitureParams K) (rng : ℕ → K) :
    NetOK (generateVolumeVoronoi ops ty params rng Net.empty) := by
  unfold generateVolumeVoronoi
  obtain ⟨h1, h2, h3, h4⟩ := vorLoop_inv ops ty params (voronoiCount params) rng
    (voronoiCount params * 10) (Net.empty, [], 0)
    ⟨rfl, by simp [Net.empty], by simp [Net.empty], by simp⟩
  refine netOK_vorConnect ops _ _ (netOK_of_edges_nil h1) (by rw [h3]; exact h2)
    (by omega)

lemma voronoi_nodes_le_count (ops : RealOps K) (ty : FurnitureType)
    (params : FurnitureParams K) (rng : ℕ → K) :
    (generateVolumeVoronoi ops ty params rng Net.empty).nodes.length ≤
      voronoiCount params := by
  unfold generateVolumeVoronoi
  obtain ⟨h1, h2, h3, h4⟩ := vorLoop_inv ops ty params (voronoiCount params) rng
    (voronoiCount params * 10) (Net.empty, [], 0)
    ⟨rfl, by simp [Net.empty], by simp [Net.empty], by simp⟩
  rw [vorConnect_nodes]
  omega

lemma mapOK_nil (n : ℕ) : MapOK [] n := ⟨by simp, by simp, by simp⟩

lemma mapSet_key_eq (k n : ℕ) (e : ℕ × ℕ) :
    (if e.1 = k then ((k, n) : ℕ × ℕ) else e).1 = e.1 := by
  split
  · simp only
    omega
  · rfl

lemma mapOK_set {m : NodeMap} {n k : ℕ} (h : MapOK m n) :
    MapOK (mapSet m k n) (n + 1) := by
  obtain ⟨hb, hk, hv⟩ := h
  unfold mapSet
  split
  · refine ⟨?_, ?_, ?_⟩
    · intro e he
      obtain ⟨e0, he0, rfl⟩ := List.mem_map.mp he
      split
      · simp only
        omega
      · exact Nat.lt_succ_of_lt (hb e0 he0)
    · rw [List.pairwise_map]
      refine hk.imp_of_mem ?_
      intro a b ha hb2 hab
      rw [mapSet_key_eq, mapSet_key_eq]
      exact hab
    · rw [List.pairwise_map]
      refine (hk.and hv).imp_of_mem ?_
      intro a b ha hb2 hab
      by_cases hak : a.1 = k <;> by_cases hbk : b.1 = k
      · exact absurd (hak.trans hbk.symm) hab.1
      · have := hb b hb2
        simp only [if_pos hak, if_neg hbk]
        omega
      · have := hb a ha
        simp only [if_neg hak, if_pos hbk]
        omega
      · simp only [if_neg hak, if_neg hbk]
        exact hab.2
  · rename_i hnone
    have hknotin : ∀ e ∈ m, e.1 ≠ k := by
      intro e he hek
      exact hnone (List.any_eq_true.mpr ⟨e, he, by simp [hek]⟩)
    refine ⟨?_, ?_, ?_⟩
    · intro e he
      rcases List.mem_append.mp he with h | h
      · exact Nat.lt_succ_of_lt (hb e h)
      · simp only [List.mem_singleton] at h
        subst h
        simp
    · rw [List.pairwise_append]
      refine ⟨hk, by simp, ?_⟩
      intro a ha b hb2
      simp only [List.mem_singleton] at hb2
      subst hb2
      exact hknotin a ha
    · rw [List.pairwise_append]
      refine ⟨hv, by simp, ?_⟩
      intro a ha b hb2
      simp only [List.mem_singleton] at hb2
      subst hb2
      have := hb a ha
      simp only
      omega

lemma mapGet_mem {m : NodeMap} {k v : ℕ} (h : mapGet m k = some v) :
    (k, v) ∈ m := by
  unfold mapGet at h
  rw [Option.map_eq_some'] at h
  obtain ⟨e, he1, he2⟩ := h
  have hmem := List.mem_of_find?_eq_some he1
  have hpred := List.find?_some he1
  have hek : e.1 = k := of_decide_eq_true hpred
  have : e = (k, v) := by
    cases e
    simp only at hek he2
    rw [hek, he2]
  rwa [this] at hmem

lemma mapOK_values_ne {m : NodeMap} {n : ℕ} (h : MapOK m n) {a b : ℕ × ℕ}
    (ha : a ∈ m) (hb : b ∈ m) (hab : a ≠ b) : a.2 ≠ b.2 := by
  refine h.2.2.forall ?_ ha hb hab
  intro x y hxy
  omega

lemma connectScan_nodes (m : NodeMap) (deltas : List ℕ) (g : Net K) :
    (connectScan m deltas g).nodes = g.nodes := by
  unfold connectScan
  refine foldl_inv (P := fun g3 : Net K => g3.nodes = g.nodes) _ _ ?_ _ rfl
  intro g3 e he h3
  refine foldl_inv (P := fun g4 : Net K => g4.nodes = g.nodes) _ _ ?_ _ h3
  intro g4 d hd h4
  dsimp only
  cases hlook : mapGet m (e.1 + d)
  · exact h4
  · simpa only [link_nodes] using h4

lemma netOK_connectScan {g : Net K} (m : NodeMap) (deltas : List ℕ)
    (hOK : NetOK g) (hm : MapOK m g.nodes.length)
    (hd : ∀ d ∈ deltas, 0 < d) : NetOK (connectScan m deltas g) := by
  unfold connectScan
  refine foldl_inv
    (P := fun g3 : Net K => NetOK g3 ∧ g3.nodes.length = g.nodes.length) _ _ ?_ _
    ⟨hOK, rfl⟩ |>.1
  intro g3 e he h3
  refine foldl_inv
    (P := fun g4 : Net K => NetOK g4 ∧ g4.nodes.length = g.nodes.length) _ _ ?_ _ h3
  intro g4 d hdm h4
  obtain ⟨h4OK, h4len⟩ := h4
  cases hlook : mapGet m (e.1 + d)
  · exact ⟨h4OK, h4len⟩
  · rename_i v
    have hvmem : (e.1 + d, v) ∈ m := mapGet_mem hlook
    have hne : e.2 ≠ v := by
      have : e ≠ (e.1 + d, v) := by
        intro hcontra
        have := congrArg Prod.fst hcontra
        simp only at this
        have hd0 := hd d hdm
        omega
      exact mapOK_values_ne hm he hvmem this
    refine ⟨netOK_link h4OK ?_ ?_ hne, by simp only [link_nodes]; omega⟩
    · have := hm.1 e he
      omega
    · have := hm.1 _ hvmem
      omega

lemma edgesInRange_connectScan {g : Net K} (m : NodeMap) (deltas : List ℕ)
    (hOK : EdgesInRange g) (hm : ∀ e ∈ m, e.2 < g.nodes.length) :
    EdgesInRange (connectScan m deltas g) := by
  unfold connectScan
  refine foldl_inv
    (P := fun g3 : Net K => EdgesInRange g3 ∧ g3.nodes.length = g.nodes.length)
    _ _ ?_ _ ⟨hOK, rfl⟩ |>.1
  intro g3 e he h3
  refine foldl_inv
    (P := fun g4 : Net K => EdgesInRange g4 ∧ g4.nodes.length = g.nodes.length)
    _ _ ?_ _ h3
  intro g4 d hdm h4
  obtain ⟨h4OK, h4len⟩ := h4
  cases hlook : mapGet m (e.1 + d)
  · exact ⟨h4OK, h4len⟩
  · rename_i v
    have hvmem : (e.1 + d, v) ∈ m := mapGet_mem hlook
    refine ⟨?_, by simp only [link_nodes]; omega⟩
    intro e2 he2
    simp only [link, List.mem_append, List.mem_singleton] at he2
    rcases he2 with he2 | he2
    · obtain ⟨b1, b2⟩ := h4OK e2 he2
      exact ⟨by simpa [link_nodes] using b1, by simpa [link_nodes] using b2⟩
    · subst he2
      have b1 := hm e he
      have b2 := hm _ hvmem
      simp only [link_nodes]
      omega

lemma buildScan_inv (keep : ℕ × ℕ × ℕ → Bool) (world : ℕ × ℕ × ℕ → V3 K)
    (flat : ℕ × ℕ × ℕ → ℕ) (grid : List (ℕ × ℕ × ℕ)) (g : Net K) :
    (buildScan keep world flat grid g).1.edges = g.edges ∧
      MapOK (buildScan keep world flat grid g).2
        (buildScan keep world flat grid g).1.nodes.length := by
  unfold buildScan
  refine foldl_inv
    (P := fun (st : Net K × NodeMap) => st.1.edges = g.edges ∧
      MapOK st.2 st.1.nodes.length)
    _ _ ?_ _ ⟨rfl, mapOK_nil _⟩
  intro st p hp hP
  obtain ⟨h1, h2⟩ := hP
  unfold scanStep
  split
  · refine ⟨by simpa [addNode] using h1, ?_⟩
    rw [addNode_nodes_length]
    exact mapOK_set h2
  · exact ⟨h1, h2⟩

lemma netOK_edgesInRange {g : Net K} (h : NetOK g) : EdgesInRange g :=
  fun e he => ⟨(h e he).1, (h e he).2.1⟩

lemma edgesInRange_gyroid (ops : RealOps K) (params : FurnitureParams K)
    (ty : FurnitureType) :
    EdgesInRange (generateVolumeGyroid ops params ty Net.empty) := by
  unfold generateVolumeGyroid
  dsimp only
  obtain ⟨he, hm⟩ := buildScan_inv (gyKeep ops ty params) (gyWorld params)
    (flatIdx (gyDims params).1 (gyDims params).2.1)
    (gridList (gyDims params).1 (gyDims params).2.1 (gyDims params).2.2) Net.empty
  exact edgesInRange_connectScan _ _ (netOK_edgesInRange (netOK_of_edges_nil he)) hm.1

lemma netOK_gyroid (ops : RealOps K) (params : FurnitureParams K)
    (ty : FurnitureType) (hw : 0 < params.width) (hh : 0 < params.height) :
    NetOK (generateVolumeGyroid ops params ty Net.empty) := by
  unfold generateVolumeGyroid
  dsimp only
  obtain ⟨he, hm⟩ := buildScan_inv (gyKeep ops ty params) (gyWorld params)
    (flatIdx (gyDims params).1 (gyDims params).2.1)
    (gridList (gyDims params).1 (gyDims params).2.1 (gyDims params).2.2) Net.empty
  refine netOK_connectScan _ _ (netOK_of_edges_nil he) hm ?_
  have hcx : 0 < ⌈params.width / (8 / 100 : K)⌉ :=
    Int.ceil_pos.mpr (by positivity)
  have hcy : 0 < ⌈params.height / (8 / 100 : K)⌉ :=
    Int.ceil_pos.mpr (by positivity)
  have hnx : 0 < (gyDims params).1 := by
    simp only [gyDims]
    omega
  have hny : 0 < (gyDims params).2.1 := by
    simp only [gyDims]
    omega
  have hmul : 0 < (gyDims params).1 * (gyDims params).2.1 := Nat.mul_pos hnx hny
  intro d hd
  simp only [List.mem_cons, List.not_mem_nil, or_false] at hd
  rcases hd with rfl | rfl | rfl
  · omega
  · omega
  · omega

lemma edgesInRange_triangular (ops : RealOps K) (params : FurnitureParams K)
    (ty : FurnitureType) :
    EdgesInRange (generateVolumeTriangular ops params ty Net.empty) := by
  unfold generateVolumeTriangular
  dsimp only
  obtain ⟨he, hm⟩ := buildScan_inv (triKeep ops ty params) (triWorld params)
    (flatIdx (triDims params).1 (triDims params).2.1)
    (gridList (triCounts params).1 (triCounts params).2.1 (triCounts params).2.2)
    Net.empty
  exact edgesInRange_connectScan _ _ (netOK_edgesInRange (netOK_of_edges_nil he)) hm.1

lemma netOK_triangular (ops : RealOps K) (params : FurnitureParams K)
    (ty : FurnitureType) (hw : 0 < params.width) (hh : 0 < params.height) :
    NetOK (generateVolumeTriangular ops params ty Net.empty) := by
  unfold generateVolumeTriangular
  dsimp only
  obtain ⟨he, hm⟩ := buildScan_inv (triKeep ops ty params) (triWorld params)
    (flatIdx (triDims params).1 (triDims params).2.1)
    (gridList (triCounts params).1 (triCounts params).2.1 (triCounts params).2.2)
    Net.empty
  refine netOK_connectScan _ _ (netOK_of_edges_nil he) hm ?_
  have hcx : 0 < ⌈params.width / (15 / 100 : K)⌉ :=
    Int.ceil_pos.mpr (by positivity)
  have hcy : 0 < ⌈params.height / (15 / 100 : K)⌉ :=
    Int.ceil_pos.mpr (by positivity)
  have hnx : 0 < (triDims params).1 := by
    simp only [triDims]
    omega
  have hny : 0 < (triDims params).2.1 := by
    simp only [triDims]
    omega
  have hmul : 0 < (triDims params).1 * (triDims params).2.1 := Nat.mul_pos hnx hny
  intro d hd
  simp only [List.mem_cons, List.not_mem_nil, or_false] at hd
  rcases hd with rfl | rfl | rfl | rfl | rfl | rfl | rfl <;> omega

lemma edgesInRange_generateFurniture (ops : RealOps K) (ty : FurnitureType)
    (params : FurnitureParams K) (rng : ℕ → K) :
    EdgesInRange (generateFurniture ops ty params rng) := by
  unfold generateFurniture
  split_ifs with h1 h2 h3
  · exact edgesInRange_gyroid ops params ty
  · exact edgesInRange_triangular ops params ty
  · exact netOK_edgesInRange (netOK_voronoi ops ty params rng)
  · cases ty
    · exact netOK_edgesInRange (netOK_chair params)
    · exact netOK_edgesInRange (netOK_table params)
    · exact netOK_edgesInRange (netOK_stool ops params)
    · exact netOK_edgesInRange (netOK_bench params)
    · exact netOK_edgesInRange (netOK_shelf params)
    · exact netOK_edgesInRange (netOK_vase ops params)
    · exact netOK_edgesInRange (netOK_recliner ops params rng)
    · exact netOK_edgesInRange (netOK_lamp ops params)
    · exact netOK_edgesInRange (netOK_mobius ops params)

lemma netOK_generateFurniture (ops : RealOps K) (ty : FurnitureType)
    (params : FurnitureParams K) (rng : ℕ → K)
    (hw : 0 < params.width) (hh : 0 < params.height) :
    NetOK (generateFurniture ops ty params rng) := by
  unfold generateFurniture
  split_ifs with h1 h2 h3
  · exact netOK_gyroid ops params ty hw hh
  · exact netOK_triangular ops params ty hw hh
  · exact netOK_voronoi ops ty params rng
  · cases ty
    · exact netOK_chair params
    · exact netOK_table params
    · exact netOK_stool ops params
    · exact netOK_bench params
    · exact netOK_shelf params
    · exact netOK_vase ops params
    · exact netOK_recliner ops params rng
    · exact netOK_lamp ops params
    · exact netOK_mobius ops params

/-- Claim C1: for every archetype, pattern family and params (and random
stream), `generateFurniture` returns a network in which every node index
appearing in any pair of `edges` is strictly less than `nodes.length`;
in particular the Bench and Shelf builders' back-computed previous-frame ids
are valid indices. -/
theorem generateFurniture_edge_indices_lt (ops : RealOps K) (ty : FurnitureType)
    (params : FurnitureParams K) (rng : ℕ → K) (e : ℕ × ℕ)
    (he : e ∈ (generateFurniture ops ty params rng).edges) :
    e.1 < (generateFurniture ops ty params rng).nodes.length ∧
      e.2 < (generateFurniture ops ty params rng).nodes.length :=
  edgesInRange_generateFurniture ops ty params rng e he

/-- Witness for C1 at a concrete Table/Linear instance over `ℚ`. -/
theorem generateFurniture_edge_indices_lt_witness :
    (0, 4) ∈ (generateFurniture qOps .Table ⟨1, 1, 1, 1 / 2, .Linear⟩
        (fun _ => 0)).edges ∧
      ((0, 4).1 < (generateFurniture qOps .Table ⟨1, 1, 1, 1 / 2, .Linear⟩
          (fun _ => 0)).nodes.length ∧
        (0, 4).2 < (generateFurniture qOps .Table ⟨1, 1, 1, 1 / 2, .Linear⟩
          (fun _ => 0)).nodes.length) := by
  have hm : (0, 4) ∈ (generateFurniture qOps .Table ⟨1, 1, 1, 1 / 2, .Linear⟩
      (fun _ => 0)).edges := by
    simp [generateFurniture, generateLinearTable, addNode, link, Net.empty]
  exact ⟨hm, generateFurniture_edge_indices_lt qOps .Table _ _ (0, 4) hm⟩

/-- Claim C10: for every archetype, pattern family, params (positive
dimensions, as the data model requires) and every outcome of the random
stream, no edge returned by `generateFurniture` is a self-loop. -/
theorem generateFurniture_no_self_loop (ops : RealOps K) (ty : FurnitureType)
    (params : FurnitureParams K) (rng : ℕ → K)
    (hw : 0 < params.width) (hh : 0 < params.height) (hd : 0 < params.depth)
    (e : ℕ × ℕ) (he : e ∈ (generateFurniture ops ty params rng).edges) :
    e.1 ≠ e.2 :=
  ((netOK_generateFurniture ops ty params rng hw hh) e he).2.2

/-- Witness for C10 at a concrete Chair/Linear instance over `ℚ`. -/
theorem generateFurniture_no_self_loop_witness :
    (0 < (⟨1, 1, 1, 1 / 2, .Linear⟩ : FurnitureParams ℚ).width ∧
        0 < (⟨1, 1, 1, 1 / 2, .Linear⟩ : FurnitureParams ℚ).height ∧
        0 < (⟨1, 1, 1, 1 / 2, .Linear⟩ : FurnitureParams ℚ).depth) ∧
      (0, 4) ∈ (generateFurniture qOps .Chair ⟨1, 1, 1, 1 / 2, .Linear⟩
        (fun _ => 0)).edges ∧
      (0, 4).1 ≠ (0, 4).2 := by
  have hm : (0, 4) ∈ (generateFurniture qOps .Chair ⟨1, 1, 1, 1 / 2, .Linear⟩
      (fun _ => 0)).edges := by
    simp [generateFurniture, generateLinearChair, addNode, link, Net.empty]
  exact ⟨⟨by norm_num, by norm_num, by norm_num⟩, hm,
    generateFurniture_no_self_loop qOps .Chair _ _ (by norm_num) (by norm_num)
      (by norm_num) (0, 4) hm⟩

/-- Claim C6: the Gyroid and Triangular volumetric paths of
`generateFurniture` consume no randomness, so two runs with identical inputs
but arbitrary (different) random streams return identical networks. -/
theorem generateFurniture_deterministic_volumetric (ops : RealOps K)
    (ty : FurnitureType) (w h d sh : K) (rng1 rng2 : ℕ → K) :
    generateFurniture ops ty ⟨w, h, d, sh, .Gyroid⟩ rng1 =
        generateFurniture ops ty ⟨w, h, d, sh, .Gyroid⟩ rng2 ∧
      generateFurniture ops ty ⟨w, h, d, sh, .Triangular⟩ rng1 =
        generateFurniture ops ty ⟨w, h, d, sh, .Triangular⟩ rng2 := by
  refine ⟨?_, ?_⟩ <;> simp [generateFurniture]

lemma stool_linear_nodes_16 (ops : RealOps K) (params : FurnitureParams K) :
    (generateLinearStool ops params Net.empty).nodes.length = 16 := by
  simp only [generateLinearStool, addNode, link, Net.empty,
    show List.range 4 = [0, 1, 2, 3] from rfl, List.foldl_cons, List.foldl_nil,
    List.length_append, List.length_cons, List.length_nil, List.nil_append,
    List.getD_cons_zero, List.getD_cons_succ, List.cons_append,
    List.singleton_append]

/-- Counterexample to claim C3: the Linear Stool at the claimed parameters
does not have 8 nodes (the rest-ring loop adds two further nodes per step). -/
theorem generateFurniture_stool_linear_ne_8 :
    (generateFurniture realOps .Stool ⟨(0.4 : ℝ), 0.45, 0.4, 0.2, .Linear⟩
      (fun _ => 0)).nodes.length ≠ 8 := by
  have hdis : generateFurniture realOps .Stool ⟨(0.4 : ℝ), 0.45, 0.4, 0.2, .Linear⟩
      (fun _ => 0) =
      generateLinearStool realOps ⟨(0.4 : ℝ), 0.45, 0.4, 0.2, .Linear⟩ Net.empty := rfl
  rw [hdis, stool_linear_nodes_16]
  norm_num

/-- Amended claim C3: `generateFurniture('Stool', ..., 'Linear')` returns
exactly 16 nodes — 2 ring nodes per step from the first loop plus 2
rest-ring nodes per step from the second loop, with `steps = 4`. -/
theorem generateFurniture_stool_linear_16 :
    (generateFurniture realOps .Stool ⟨(0.4 : ℝ), 0.45, 0.4, 0.2, .Linear⟩
      (fun _ => 0)).nodes.length = 16 := by
  have hdis : generateFurniture realOps .Stool ⟨(0.4 : ℝ), 0.45, 0.4, 0.2, .Linear⟩
      (fun _ => 0) =
      generateLinearStool realOps ⟨(0.4 : ℝ), 0.45, 0.4, 0.2, .Linear⟩ Net.empty := rfl
  rw [hdis, stool_linear_nodes_16]

lemma vorLoop_reject (ops : RealOps K) (ty : FurnitureType)
    (params : FurnitureParams K) (count : ℕ) (rng : ℕ → K)
    (hrej : ∀ k : ℕ, isInsideFurniture ops ty ((rng k - 1 / 2) * params.width)
      (rng (k + 1) * params.height) ((rng (k + 2) - 1 / 2) * params.depth)
      params = false) :
    ∀ (fuel : ℕ) (st : Net K × List (ℕ × V3 K) × ℕ),
      (vorLoop ops ty params count rng fuel st).1 = st.1 ∧
        (vorLoop ops ty params count rng fuel st).2.1 = st.2.1 := by
  intro fuel
  induction fuel with
  | zero => intro st; simp [vorLoop]
  | succ fuel ih =>
    intro st
    rw [vorLoop]
    dsimp only
    split
    · rw [hrej st.2.2]
      simp only [Bool.false_eq_true, if_false]
      exact ih (st.1, st.2.1, st.2.2 + 3)
    · exact ⟨rfl, rfl⟩

lemma table_center_not_inside :
    isInsideFurniture realOps .Table 0 (1 / 2) 0
      ⟨(1 : ℝ), 1, 1, 1 / 2, .Voronoi⟩ = false := by
  simp only [isInsideFurniture, inBox, Bool.or_eq_false_iff, Bool.and_eq_false_iff,
    decide_eq_false_iff_not, not_le]
  norm_num [abs_of_nonneg]

/-- Counterexample to claim C4: at Table with unit dimensions and the random
stream constantly `1/2`, every sampled point is `(0, 1/2, 0)`, which the
Table classifier rejects, so the Voronoi generator returns 0 nodes — fewer
than the claimed lower bound of 50. -/
theorem generateFurniture_voronoi_lt_50 :
    (generateFurniture realOps .Table ⟨(1 : ℝ), 1, 1, 1 / 2, .Voronoi⟩
      (fun _ => (1 / 2 : ℝ))).nodes.length < 50 := by
  have hdis : generateFurniture realOps .Table ⟨(1 : ℝ), 1, 1, 1 / 2, .Voronoi⟩
      (fun _ => (1 / 2 : ℝ)) =
      generateVolumeVoronoi realOps .Table ⟨(1 : ℝ), 1, 1, 1 / 2, .Voronoi⟩
        (fun _ => (1 / 2 : ℝ)) Net.empty := by
    simp [generateFurniture]
  rw [hdis]
  unfold generateVolumeVoronoi
  dsimp only
  rw [vorConnect_nodes]
  obtain ⟨h1, h2⟩ := vorLoop_reject realOps .Table ⟨(1 : ℝ), 1, 1, 1 / 2, .Voronoi⟩
    (voronoiCount ⟨(1 : ℝ), 1, 1, 1 / 2, .Voronoi⟩) (fun _ => (1 / 2 : ℝ))
    (fun k => by
      simpa using table_center_not_inside)
    (voronoiCount ⟨(1 : ℝ), 1, 1, 1 / 2, .Voronoi⟩ * 10) (Net.empty, [], 0)
  rw [h1]
  simp [Net.empty]

/-- Amended claim C4: for every archetype, params and random stream, the
Voronoi pattern returns at most `max(50, floor(width*height*depth*600))`
nodes; when the rejection-sampling attempt budget is exhausted the count can
be smaller (even zero), so 50 is an upper-bound target, not a lower bound. -/
theorem generateFurniture_voronoi_nodes_le (ops : RealOps K) (ty : FurnitureType)
    (w h d sh : K) (rng : ℕ → K) :
    (generateFurniture ops ty ⟨w, h, d, sh, .Voronoi⟩ rng).nodes.length ≤
      voronoiCount ⟨w, h, d, sh, .Voronoi⟩ := by
  have hdis : generateFurniture ops ty ⟨w, h, d, sh, .Voronoi⟩ rng =
      generateVolumeVoronoi ops ty ⟨w, h, d, sh, .Voronoi⟩ rng Net.empty := by
    simp [generateFurniture]
  rw [hdis]
  exact voronoi_nodes_le_count ops ty _ rng

/-!  ### Claim C2: the gyroid connect phase and the flattened-index wraparound

The source's connect phase recovers `(x, y, z)` from each map key and forms
the neighbour indices `idx(x+1,y,z)`, `idx(x,y+1,z)`, `idx(x,y,z+1)`.  At
the `x = nx - 1` boundary, `idx(nx, y, z) = idx(0, y + 1, z)`, so the `+x`
offset aliases the flattened index of a wrapped-around grid point (and
similarly `+y` at `y = ny - 1`); when that aliased point is kept, the code
links two nodes that are not axis neighbours.  The lemmas below produce the
map entry of every kept grid point, show lookups of present keys succeed,
and show the connect phase emits an edge for every pair of entries whose
keys differ by a forward offset; the counterexample then exhibits such an
aliased pair for a concrete Stool. -/

lemma addNode_nodes (g : Net K) (x y z : K) :
    (addNode g x y z).1.nodes = g.nodes ++ [⟨x, y, z⟩] := rfl

lemma getElem?_append_some {α : Type _} {l : List α} {i : ℕ} {a : α}
    (h : l[i]? = some a) (l' : List α) : (l ++ l')[i]? = some a := by
  have hi : i < l.length := by
    by_contra hc
    rw [List.getElem?_eq_none (by omega)] at h
    cases h
  rw [List.getElem?_append_left hi]
  exact h

lemma mem_mapSet_of_ne {m : NodeMap} {e : ℕ × ℕ} (he : e ∈ m) {k v : ℕ}
    (hne : e.1 ≠ k) : e ∈ mapSet m k v := by
  unfold mapSet
  split
  · exact List.mem_map.mpr ⟨e, he, by rw [if_neg hne]⟩
  · exact List.mem_append_left _ he

lemma mem_mapSet_self (m : NodeMap) (k v : ℕ) : (k, v) ∈ mapSet m k v := by
  unfold mapSet
  split
  · rename_i h
    rw [List.any_eq_true] at h
    obtain ⟨e, he, hek⟩ := h
    exact List.mem_map.mpr ⟨e, he, by rw [if_pos (of_decide_eq_true hek)]⟩
  · exact List.mem_append_right _ (List.mem_singleton.mpr rfl)

lemma mapGet_of_mem {m : NodeMap} (hk : m.Pairwise (fun a b => a.1 ≠ b.1))
    {k v : ℕ} (h : (k, v) ∈ m) : mapGet m k = some v := by
  induction m with
  | nil => cases h
  | cons e m ih =>
    rw [List.pairwise_cons] at hk
    rcases List.mem_cons.mp h with heq | h2
    · cases heq
      unfold mapGet
      rw [List.find?_cons_of_pos _ (by simp)]
      rfl
    · have hne : ¬ e.1 = k := by
        have := hk.1 (k, v) h2
        simpa using this
      unfold mapGet
      rw [List.find?_cons_of_neg _ (by simp [hne])]
      exact ih hk.2 h2

lemma scanStep_preserve (keep : ℕ × ℕ × ℕ → Bool) (world : ℕ × ℕ × ℕ → V3 K)
    (flat : ℕ × ℕ × ℕ → ℕ) (l : List (ℕ × ℕ × ℕ)) {k v : ℕ} {w : V3 K} :
    ∀ st : Net K × NodeMap, (k, v) ∈ st.2 → st.1.nodes[v]? = some w →
      (∀ q ∈ l, flat q ≠ k) →
      (k, v) ∈ (l.foldl (scanStep keep world flat) st).2 ∧
        (l.foldl (scanStep keep world flat) st).1.nodes[v]? = some w := by
  induction l with
  | nil => intro st h1 h2 _; exact ⟨h1, h2⟩
  | cons q l ih =>
    intro st h1 h2 h3
    rw [List.foldl_cons]
    refine ih (scanStep keep world flat st q) ?_ ?_ ?_
    · unfold scanStep
      split
      · dsimp only
        exact mem_mapSet_of_ne h1 (Ne.symm (h3 q (List.mem_cons_self q l)))
      · exact h1
    · unfold scanStep
      split
      · dsimp only
        rw [addNode_nodes]
        exact getElem?_append_some h2 _
      · exact h2
    · intro q2 hq2
      exact h3 q2 (List.mem_cons_of_mem _ hq2)

lemma buildScan_mem (keep : ℕ × ℕ × ℕ → Bool) (world : ℕ × ℕ × ℕ → V3 K)
    (flat : ℕ × ℕ × ℕ → ℕ) (grid : List (ℕ × ℕ × ℕ)) (g : Net K)
    (hnd : grid.Nodup)
    (hinj : ∀ p ∈ grid, ∀ q ∈ grid, flat p = flat q → p = q)
    {p : ℕ × ℕ × ℕ} (hp : p ∈ grid) (hkeep : keep p = true) :
    ∃ v, (flat p, v) ∈ (buildScan keep world flat grid g).2 ∧
      (buildScan keep world flat grid g).1.nodes[v]? = some (world p) := by
  obtain ⟨l₁, l₂, rfl⟩ := List.append_of_mem hp
  unfold buildScan
  rw [List.foldl_append, List.foldl_cons]
  set st₁ := l₁.foldl (scanStep keep world flat) (g, []) with hst₁
  refine ⟨st₁.1.nodes.length, ?_⟩
  have hstep : scanStep keep world flat st₁ p =
      ((addNode st₁.1 (world p).x (world p).y (world p).z).1,
        mapSet st₁.2 (flat p) st₁.1.nodes.length) := by
    unfold scanStep
    rw [if_pos hkeep]
    rfl
  rw [hstep]
  have hmem0 : (flat p, st₁.1.nodes.length) ∈
      mapSet st₁.2 (flat p) st₁.1.nodes.length := mem_mapSet_self _ _ _
  have hnode0 : ((addNode st₁.1 (world p).x (world p).y
      (world p).z).1).nodes[st₁.1.nodes.length]? = some (world p) := by
    rw [addNode_nodes, List.getElem?_concat_length]
  have hno : ∀ q ∈ l₂, flat q ≠ flat p := by
    intro q hq hflat
    have hqg : q ∈ l₁ ++ p :: l₂ := by
      rw [List.mem_append, List.mem_cons]
      exact Or.inr (Or.inr hq)
    have hpg : p ∈ l₁ ++ p :: l₂ := by
      rw [List.mem_append, List.mem_cons]
      exact Or.inr (Or.inl rfl)
    have hqp : q = p := hinj q hqg p hpg hflat
    subst hqp
    have h2 := hnd.of_append_right
    rw [List.nodup_cons] at h2
    exact h2.1 hq
  exact scanStep_preserve keep world flat l₂ _ hmem0 hnode0 hno

lemma foldl_edges_mono {α : Type _} (f : Net K → α → Net K)
    (hf : ∀ (g : Net K) (a : α), ∀ x ∈ g.edges, x ∈ (f g a).edges)
    (l : List α) : ∀ (g : Net K), ∀ x ∈ g.edges, x ∈ (l.foldl f g).edges := by
  induction l with
  | nil => intro g x hx; exact hx
  | cons a l ih =>
    intro g x hx
    rw [List.foldl_cons]
    exact ih _ _ (hf g a x hx)

lemma foldl_edges_create {α : Type _} (f : Net K → α → Net K)
    (hf : ∀ (g : Net K) (a : α), ∀ x ∈ g.edges, x ∈ (f g a).edges)
    {l : List α} {a : α} (ha : a ∈ l) {x : ℕ × ℕ}
    (hc : ∀ g : Net K, x ∈ (f g a).edges) (g : Net K) :
    x ∈ (l.foldl f g).edges := by
  obtain ⟨s, t, rfl⟩ := List.append_of_mem ha
  rw [List.foldl_append, List.foldl_cons]
  exact foldl_edges_mono f hf t _ x (hc _)

lemma connectScan_edge_mem (m : NodeMap) (deltas : List ℕ) (g : Net K)
    {k v d w : ℕ} (hkv : (k, v) ∈ m) (hd : d ∈ deltas)
    (hw : mapGet m (k + d) = some w) :
    (v, w) ∈ (connectScan m deltas g).edges := by
  unfold connectScan
  refine foldl_edges_create _ ?_ hkv ?_ g
  · intro g2 e x hx
    refine foldl_edges_mono _ ?_ deltas g2 x hx
    intro g3 d2 y hy
    dsimp only
    cases mapGet m (e.1 + d2)
    · exact hy
    · simp only [link, List.mem_append]
      exact Or.inl hy
  · intro g2
    dsimp only
    refine foldl_edges_create _ ?_ hd ?_ g2
    · intro g3 d2 y hy
      dsimp only
      cases mapGet m (k + d2)
      · exact hy
      · simp only [link, List.mem_append]
        exact Or.inl hy
    · intro g3
      dsimp only
      rw [hw]
      simp [link]

lemma mem_gridList {cx cy cz : ℕ} {p : ℕ × ℕ × ℕ} :
    p ∈ gridList cx cy cz ↔ p.1 < cx ∧ p.2.1 < cy ∧ p.2.2 < cz := by
  obtain ⟨x, y, z⟩ := p
  constructor
  · intro h
    simp only [gridList, List.mem_bind, List.mem_map, List.mem_range] at h
    obtain ⟨a, ha, b, hb, c, hc, heq⟩ := h
    cases heq
    exact ⟨ha, hb, hc⟩
  · rintro ⟨hx, hy, hz⟩
    simp only [gridList, List.mem_bind, List.mem_map, List.mem_range]
    exact ⟨x, hx, y, hy, z, hz, rfl⟩

lemma gridList_nodup (cx cy cz : ℕ) : (gridList cx cy cz).Nodup := by
  unfold gridList
  rw [List.nodup_bind]
  refine ⟨?_, ?_⟩
  · intro x _
    rw [List.nodup_bind]
    refine ⟨?_, ?_⟩
    · intro y _
      exact (List.nodup_range cz).map (fun a b hab => by
        have := congrArg (fun t : ℕ × ℕ × ℕ => t.2.2) hab
        simpa using this)
    · refine (List.pairwise_lt_range cy).imp ?_
      intro a b hab t ht1 ht2
      simp only [List.mem_map, List.mem_range] at ht1 ht2
      obtain ⟨z1, _, rfl⟩ := ht1
      obtain ⟨z2, _, heq⟩ := ht2
      have := congrArg (fun t : ℕ × ℕ × ℕ => t.2.1) heq
      simp only at this
      omega
  · refine (List.pairwise_lt_range cx).imp ?_
    intro a b hab t ht1 ht2
    simp only [List.mem_bind, List.mem_map, List.mem_range] at ht1 ht2
    obtain ⟨y1, _, z1, _, rfl⟩ := ht1
    obtain ⟨y2, _, z2, _, heq⟩ := ht2
    have := congrArg (fun t : ℕ × ℕ × ℕ => t.1) heq
    simp only at this
    omega

lemma flatIdx_inj_on_grid {nx ny nz : ℕ} {p q : ℕ × ℕ × ℕ}
    (hp : p ∈ gridList nx ny nz) (hq : q ∈ gridList nx ny nz)
    (h : flatIdx nx ny p = flatIdx nx ny q) : p = q := by
  rw [mem_gridList] at hp hq
  obtain ⟨x, y, z⟩ := p
  obtain ⟨x', y', z'⟩ := q
  obtain ⟨hx, hy, hz⟩ := hp
  obtain ⟨hx', hy', hz'⟩ := hq
  simp only [flatIdx] at h hx hy hz hx' hy' hz'
  have e1 : x + nx * (y + ny * z) = x' + nx * (y' + ny * z') := by
    calc x + nx * (y + ny * z) = x + y * nx + z * nx * ny := by ring
    _ = x' + y' * nx + z' * nx * ny := h
    _ = x' + nx * (y' + ny * z') := by ring
  have hx0 : 0 < nx := by omega
  have hxx : x = x' := by
    have h2 := congrArg (· % nx) e1
    simp only [Nat.add_mul_mod_self_left] at h2
    rwa [Nat.mod_eq_of_lt hx, Nat.mod_eq_of_lt hx'] at h2
  subst hxx
  have e2 : y + ny * z = y' + ny * z' :=
    Nat.eq_of_mul_eq_mul_left hx0 (Nat.add_left_cancel e1)
  have hy0 : 0 < ny := by omega
  have hyy : y = y' := by
    have h2 := congrArg (· % ny) e2
    simp only [Nat.add_mul_mod_self_left] at h2
    rwa [Nat.mod_eq_of_lt hy, Nat.mod_eq_of_lt hy'] at h2
  subst hyy
  have e3 : z = z' :=
    Nat.eq_of_mul_eq_mul_left hy0 (Nat.add_left_cancel e2)
  subst e3
  rfl

lemma gyroid_wrap_edge (ops : RealOps K) (params : FurnitureParams K)
    (ty : FurnitureType) {p q : ℕ × ℕ × ℕ} {d : ℕ}
    (hp : p ∈ gridList (gyDims params).1 (gyDims params).2.1 (gyDims params).2.2)
    (hq : q ∈ gridList (gyDims params).1 (gyDims params).2.1 (gyDims params).2.2)
    (hkp : gyKeep ops ty params p = true) (hkq : gyKeep ops ty params q = true)
    (hd : d ∈ [1, (gyDims params).1, (gyDims params).1 * (gyDims params).2.1])
    (hflat : flatIdx (gyDims params).1 (gyDims params).2.1 q =
      flatIdx (gyDims params).1 (gyDims params).2.1 p + d) :
    ∃ a b : ℕ,
      (a, b) ∈ (generateVolumeGyroid ops params ty Net.empty).edges ∧
      (generateVolumeGyroid ops params ty Net.empty).nodes[a]? =
        some (gyWorld params p) ∧
      (generateVolumeGyroid ops params ty Net.empty).nodes[b]? =
        some (gyWorld params q) := by
  unfold generateVolumeGyroid
  dsimp only
  set dims := gyDims params with hdims
  obtain ⟨a, hma, hna⟩ := buildScan_mem (gyKeep ops ty params) (gyWorld params)
    (flatIdx dims.1 dims.2.1) (gridList dims.1 dims.2.1 dims.2.2)
    (Net.empty : Net K) (gridList_nodup _ _ _)
    (fun p1 hp1 q1 hq1 hf => flatIdx_inj_on_grid hp1 hq1 hf) hp hkp
  obtain ⟨b, hmb, hnb⟩ := buildScan_mem (gyKeep ops ty params) (gyWorld params)
    (flatIdx dims.1 dims.2.1) (gridList dims.1 dims.2.1 dims.2.2)
    (Net.empty : Net K) (gridList_nodup _ _ _)
    (fun p1 hp1 q1 hq1 hf => flatIdx_inj_on_grid hp1 hq1 hf) hq hkq
  have hmOK := (buildScan_inv (gyKeep ops ty params) (gyWorld params)
    (flatIdx dims.1 dims.2.1) (gridList dims.1 dims.2.1 dims.2.2)
    (Net.empty : Net K)).2
  have hget : mapGet (buildScan (gyKeep ops ty params) (gyWorld params)
      (flatIdx dims.1 dims.2.1) (gridList dims.1 dims.2.1 dims.2.2)
      (Net.empty : Net K)).2 (flatIdx dims.1 dims.2.1 p + d) = some b := by
    rw [← hflat]
    exact mapGet_of_mem hmOK.2.1 hmb
  refine ⟨a, b, ?_, ?_, ?_⟩
  · exact connectScan_edge_mem _ _ _ hma hd hget
  · rw [connectScan_nodes]
    exact hna
  · rw [connectScan_nodes]
    exact hnb

lemma gyDims_stool :
    gyDims (⟨561/1000, 2, 16/100, 2/10, .Gyroid⟩ : FurnitureParams ℝ) =
      (10, 27, 4) := by
  unfold gyDims
  dsimp only
  have h1 : ⌈(561/1000 : ℝ) / (8/100)⌉ = 8 := by
    rw [Int.ceil_eq_iff] <;> norm_num
  have h2 : ⌈(2 : ℝ) / (8/100)⌉ = 25 := by
    rw [Int.ceil_eq_iff] <;> norm_num
  have h3 : ⌈(16/100 : ℝ) / (8/100)⌉ = 2 := by
    rw [Int.ceil_eq_iff] <;> norm_num
  rw [h1, h2, h3]
  rfl

lemma gyWorld_stoolA :
    gyWorld (⟨561/1000, 2, 16/100, 2/10, .Gyroid⟩ : FurnitureParams ℝ)
      (9, 1, 2) = ⟨719/2000, 0, 0⟩ := by
  unfold gyWorld
  dsimp only
  rw [V3.mk.injEq]
  norm_num

lemma gyWorld_stoolB :
    gyWorld (⟨561/1000, 2, 16/100, 2/10, .Gyroid⟩ : FurnitureParams ℝ)
      (0, 2, 2) = ⟨-721/2000, 2/25, 0⟩ := by
  unfold gyWorld
  dsimp only
  rw [V3.mk.injEq]
  norm_num

lemma sinA_bound : |Real.sin (719/250)| < 1/2 := by
  have hπl : (3.141592 : ℝ) < Real.pi := Real.pi_gt_d6
  have hπu : Real.pi < 3.141593 := Real.pi_lt_d6
  norm_num at hπl hπu
  have hy : Real.sin (719/250 : ℝ) = Real.sin (Real.pi - 719/250) := by
    rw [Real.sin_pi_sub]
  have hypos : (0 : ℝ) < Real.pi - 719/250 := by linarith
  have hyub : Real.pi - 719/250 < 1/2 := by linarith
  have hslt : Real.sin (Real.pi - 719/250) < Real.pi - 719/250 :=
    Real.sin_lt hypos
  have hspos : 0 < Real.sin (Real.pi - 719/250) :=
    Real.sin_pos_of_pos_of_lt_pi hypos (by linarith)
  rw [hy, abs_lt]
  constructor <;> linarith

set_option maxHeartbeats 1600000 in
lemma sinB_bound :
    |Real.sin (16/25) - Real.sin (721/250) * Real.cos (16/25)| < 1/2 := by
  have hπl : (3.141592 : ℝ) < Real.pi := Real.pi_gt_d6
  have hπu : Real.pi < 3.141593 := Real.pi_lt_d6
  norm_num at hπl hπu
  set s8 := Real.sin (8/25) with hs8def
  set s4 := Real.sin (4/25) with hs4def
  have hc8 : Real.cos (8/25) = 1 - 2 * s4 ^ 2 := by
    have h2 : (8/25 : ℝ) = 2 * (4/25) := by norm_num
    rw [hs4def, h2, Real.cos_two_mul, Real.cos_sq']
    ring
  have hc16 : Real.cos (16/25) = 1 - 2 * s8 ^ 2 := by
    have h2 : (16/25 : ℝ) = 2 * (8/25) := by norm_num
    rw [hs8def, h2, Real.cos_two_mul, Real.cos_sq']
    ring
  have hs16 : Real.sin (16/25) = 2 * s8 * Real.cos (8/25) := by
    have h2 : (16/25 : ℝ) = 2 * (8/25) := by norm_num
    rw [hs8def, h2, Real.sin_two_mul]
  have hs4u : s4 < 4/25 := Real.sin_lt (by norm_num)
  have hs4l : (2484/15625 : ℝ) < s4 := by
    have hL : (4/25 : ℝ) - (4/25)^3/4 = 2484/15625 := by norm_num
    have := Real.sin_gt_sub_cube (x := (4/25 : ℝ)) (by norm_num) (by norm_num)
    linarith
  have hs8u : s8 < 8/25 := Real.sin_lt (by norm_num)
  have hs8l : (4872/15625 : ℝ) < s8 := by
    have hL : (8/25 : ℝ) - (8/25)^3/4 = 4872/15625 := by norm_num
    have := Real.sin_gt_sub_cube (x := (8/25 : ℝ)) (by norm_num) (by norm_num)
    linarith
  have hs4pos : 0 < s4 := by linarith
  have hs8pos : 0 < s8 := by linarith
  have hs4sq_u : s4 ^ 2 < (4/25 : ℝ) ^ 2 :=
    pow_lt_pow_left hs4u hs4pos.le (by norm_num)
  have hs4sq_l : (2484/15625 : ℝ) ^ 2 < s4 ^ 2 :=
    pow_lt_pow_left hs4l (by norm_num) (by norm_num)
  have hs8sq_u : s8 ^ 2 < (8/25 : ℝ) ^ 2 :=
    pow_lt_pow_left hs8u hs8pos.le (by norm_num)
  have hc8u : Real.cos (8/25) < 1 - 2 * (2484/15625 : ℝ)^2 := by
    rw [hc8]
    linarith
  have hc8l : 1 - 2 * (4/25 : ℝ)^2 < Real.cos (8/25) := by
    rw [hc8]
    linarith
  have hc8pos : 0 < Real.cos (8/25) := by
    have h1 : 1 - 2 * (4/25 : ℝ)^2 = 593/625 := by norm_num
    linarith
  have hc16u : Real.cos (16/25) ≤ 1 := Real.cos_le_one _
  have hc16l : 1 - 2 * (8/25 : ℝ)^2 < Real.cos (16/25) := by
    rw [hc16]
    linarith
  have hs16u : Real.sin (16/25) < 2 * (8/25) * (1 - 2 * (2484/15625 : ℝ)^2) := by
    rw [hs16]
    have step1 : 2 * s8 * Real.cos (8/25) < 2 * (8/25 : ℝ) * Real.cos (8/25) := by
      have := mul_lt_mul_of_pos_right
        (show 2 * s8 < 2 * (8/25 : ℝ) by linarith) hc8pos
      linarith
    have step2 : 2 * (8/25 : ℝ) * Real.cos (8/25) <
        2 * (8/25) * (1 - 2 * (2484/15625 : ℝ)^2) := by
      have := mul_lt_mul_of_pos_left hc8u (show (0:ℝ) < 2 * (8/25) by norm_num)
      linarith
    linarith
  have hs16pos : 0 < Real.sin (16/25) := by
    rw [hs16]
    exact mul_pos (mul_pos two_pos hs8pos) hc8pos
  obtain ⟨y, hydef⟩ : ∃ t : ℝ, t = Real.pi - 721/250 := ⟨_, rfl⟩
  have hsy_eq : Real.sin (721/250 : ℝ) = Real.sin y := by
    rw [hydef, Real.sin_pi_sub]
  have hyl : (257592/1000000 : ℝ) < y := by rw [hydef]; linarith
  have hyu : y < (257593/1000000 : ℝ) := by rw [hydef]; linarith
  have hypos : (0:ℝ) < y := by linarith
  have hsyu : Real.sin y < (257593/1000000 : ℝ) :=
    lt_trans (Real.sin_lt hypos) hyu
  have hsyl : (2533/10000 : ℝ) < Real.sin y := by
    have hcube : y ^ 3 < (257593/1000000 : ℝ) ^ 3 :=
      pow_lt_pow_left hyu hypos.le (by norm_num)
    have hgt := Real.sin_gt_sub_cube hypos (by linarith)
    have hval : (257592/1000000 : ℝ) - (257593/1000000 : ℝ)^3/4 >
        2533/10000 := by norm_num
    linarith
  have hsypos : (0:ℝ) < Real.sin y := by linarith
  have hprod_l : (2533/10000 : ℝ) * (1 - 2 * (8/25:ℝ)^2) <
      Real.sin y * Real.cos (16/25) := by
    have h1 : (0:ℝ) < 1 - 2 * (8/25:ℝ)^2 := by norm_num
    nlinarith [hsyl, hc16l, hsypos, h1]
  have hprod_u : Real.sin y * Real.cos (16/25) ≤ Real.sin y := by
    nlinarith [hc16u, hsypos]
  have hnum : 2 * (8/25 : ℝ) * (1 - 2*(2484/15625:ℝ)^2) < 6077/10000 := by
    norm_num
  have hnum2 : (2014/10000 : ℝ) < (2533/10000 : ℝ) * (1 - 2 * (8/25:ℝ)^2) := by
    norm_num
  rw [hsy_eq, abs_lt]
  constructor
  · linarith
  · linarith

lemma gyKeep_stoolA :
    gyKeep realOps .Stool
      (⟨561/1000, 2, 16/100, 2/10, .Gyroid⟩ : FurnitureParams ℝ)
      (9, 1, 2) = true := by
  unfold gyKeep
  dsimp only
  rw [gyWorld_stoolA]
  dsimp only
  rw [Bool.and_eq_true]
  constructor
  · simp only [isInsideFurniture, lerp, Bool.and_eq_true, decide_eq_true_eq]
    norm_num
  · rw [decide_eq_true_eq]
    unfold gyroidVal
    simp only [realOps]
    have e1 : ((719:ℝ)/2000) * 8 = 719/250 := by norm_num
    have e2 : ((0:ℝ)) * 8 = 0 := by norm_num
    rw [e1, e2, Real.sin_zero, Real.cos_zero]
    simpa using sinA_bound

lemma gyKeep_stoolB :
    gyKeep realOps .Stool
      (⟨561/1000, 2, 16/100, 2/10, .Gyroid⟩ : FurnitureParams ℝ)
      (0, 2, 2) = true := by
  unfold gyKeep
  dsimp only
  rw [gyWorld_stoolB]
  dsimp only
  rw [Bool.and_eq_true]
  constructor
  · simp only [isInsideFurniture, lerp, Bool.and_eq_true, decide_eq_true_eq]
    norm_num
  · rw [decide_eq_true_eq]
    unfold gyroidVal
    simp only [realOps]
    have e1 : (-721/2000 : ℝ) * 8 = -(721/250) := by norm_num
    have e2 : ((2:ℝ)/25) * 8 = 16/25 := by norm_num
    have e3 : ((0:ℝ)) * 8 = 0 := by norm_num
    rw [e1, e2, e3, Real.sin_neg, Real.cos_neg, Real.sin_zero, Real.cos_zero]
    have harr : -Real.sin (721/250) * Real.cos (16/25) +
        Real.sin (16/25) * 1 + 0 * Real.cos (721/250) =
        Real.sin (16/25) - Real.sin (721/250) * Real.cos (16/25) := by ring
    rw [harr]
    exact sinB_bound

/-- Claim C2: the spec says every edge of the Gyroid volumetric generator
connects a kept grid point to the kept grid point at exactly its `+x`, `+y`
or `+z` grid neighbour, and that no edge connects any other pair of grid
points.  REFUTED — the connect phase forms neighbour indices from the
flattened key, which wraps around at the `x = nx-1` (and `y = ny-1`) grid
boundary: `idx(nx-1,y,z) + 1 = idx(0,y+1,z)`.  For a Stool with
`width = 0.561`, `height = 2`, `depth = 0.16` the generated graph contains
an edge whose endpoint nodes are world positions differing in BOTH the x
and the y coordinate — impossible for any `+x`/`+y`/`+z` grid-neighbour
pair (grid points A = (9,1,2) at (0.3595, 0, 0) and B = (0,2,2) at
(-0.3605, 0.08, 0), flattened indices 559 and 560 = 559 + 1). -/
theorem generateFurniture_gyroid_wraparound_edge :
    ∃ a b : ℕ, ∃ pa pb : V3 ℝ,
      (a, b) ∈ (generateFurniture realOps .Stool
        ⟨561/1000, 2, 16/100, 2/10, .Gyroid⟩ (fun _ => 0)).edges ∧
      (generateFurniture realOps .Stool
        ⟨561/1000, 2, 16/100, 2/10, .Gyroid⟩ (fun _ => 0)).nodes[a]? = some pa ∧
      (generateFurniture realOps .Stool
        ⟨561/1000, 2, 16/100, 2/10, .Gyroid⟩ (fun _ => 0)).nodes[b]? = some pb ∧
      pa.x ≠ pb.x ∧ pa.y ≠ pb.y := by
  have hdis : generateFurniture realOps .Stool
      (⟨561/1000, 2, 16/100, 2/10, .Gyroid⟩ : FurnitureParams ℝ) (fun _ => 0) =
      generateVolumeGyroid realOps
        (⟨561/1000, 2, 16/100, 2/10, .Gyroid⟩ : FurnitureParams ℝ) .Stool
        Net.empty := by
    simp [generateFurniture]
  obtain ⟨a, b, hedge, hna, hnb⟩ := gyroid_wrap_edge realOps
    (⟨561/1000, 2, 16/100, 2/10, .Gyroid⟩ : FurnitureParams ℝ) .Stool
    (p := (9, 1, 2)) (q := (0, 2, 2)) (d := 1)
    (by rw [gyDims_stool]; exact mem_gridList.mpr (by decide))
    (by rw [gyDims_stool]; exact mem_gridList.mpr (by decide))
    gyKeep_stoolA gyKeep_stoolB
    (by rw [gyDims_stool]; decide)
    (by rw [gyDims_stool]; decide)
  rw [gyWorld_stoolA] at hna
  rw [gyWorld_stoolB] at hnb
  rw [hdis]
  refine ⟨a, b, ⟨719/2000, 0, 0⟩, ⟨-721/2000, 2/25, 0⟩, hedge, hna, hnb, ?_, ?_⟩
  · dsimp only
    norm_num
  · dsimp only
    norm_num
